import Mathlib

/-!
Verification development for the html-to-design plugin's Capture → Mapper
pipeline.  The source is TypeScript; it is embedded shallowly:

* JS numbers are modelled as `ℚ`; where `NaN` can flow (`parseFloat`,
  `parseInt`) the result is `Option ℚ` (`none` = NaN).  Floating-point
  rounding is not modelled: all arithmetic reached by the claims is exact
  on the dyadic/decimal values involved.
* JS strings are `String`; the handful of regular expressions in the source
  are embedded as hand-rolled matchers with the same (leftmost-match,
  greedy-with-backtracking) semantics on the fragment of regex syntax used.
* DOM / Figma side effects are made explicit: the capture side takes an
  input tree of elements with computed styles, the mapper side takes an
  environment (image fetcher, font availability, SVG import) and threads
  the per-run caches (`imageCache`, `fontLoadErrors`) as state.
-/

namespace HtmlToDesign

/-! ## JS primitives -/

/-- A JS number that may be NaN (`none`). -/
abbrev JSNum := Option ℚ

/-- JS `<` on possibly-NaN numbers: any comparison with NaN is false. -/
def jsLt (a b : JSNum) : Bool :=
  match a, b with
  | some x, some y => decide (x < y)
  | _, _ => false

/-- JS whitespace characters (ASCII fragment; the source never feeds
other whitespace to these functions). -/
def isWSChar (c : Char) : Bool :=
  c.toNat = 32 ∨ c.toNat = 9 ∨ c.toNat = 10 ∨ c.toNat = 13 ∨ c.toNat = 11 ∨ c.toNat = 12

def isDigitC (c : Char) : Bool :=
  48 ≤ c.toNat ∧ c.toNat ≤ 57

/-- Value of a hex digit (either case), `none` otherwise. -/
def hexValC (c : Char) : Option ℕ :=
  if 48 ≤ c.toNat ∧ c.toNat ≤ 57 then some (c.toNat - 48)
  else if 97 ≤ c.toNat ∧ c.toNat ≤ 102 then some (c.toNat - 87)
  else if 65 ≤ c.toNat ∧ c.toNat ≤ 70 then some (c.toNat - 55)
  else none

def isHexC (c : Char) : Bool := (hexValC c).isSome

/-- JS `String.prototype.toLowerCase`, ASCII fragment. -/
def toLowerC (c : Char) : Char :=
  if 65 ≤ c.toNat ∧ c.toNat ≤ 90 then Char.ofNat (c.toNat + 32) else c

def toLowerJS (s : String) : String := ⟨s.data.map toLowerC⟩

/-- JS `String.prototype.trim` (ASCII whitespace fragment). -/
def jsTrim (s : String) : String :=
  ⟨((s.data.dropWhile isWSChar).reverse.dropWhile isWSChar).reverse⟩

/-- JS `String.prototype.endsWith`. -/
def endsWithJS (s suffix : String) : Bool := suffix.data.isSuffixOf s.data

/-- JS `String.prototype.startsWith`. -/
def startsWithJS (s pre : String) : Bool := pre.data.isPrefixOf s.data

/-- Is `sub` an infix of the list? (helper for JS `includes`). -/
def listIsInfix (sub : List Char) : List Char → Bool
  | [] => sub.isEmpty
  | c :: t => sub.isPrefixOf (c :: t) || listIsInfix sub t

/-- JS `String.prototype.includes`. -/
def includesJS (s sub : String) : Bool := listIsInfix sub.data s.data

/-- Natural-number value of a digit list (most significant first). -/
def natOfDigits (l : List Char) : ℕ :=
  l.foldl (fun a c => a * 10 + (c.toNat - 48)) 0

/-! ### `parseFloat`

JS `parseFloat` takes the longest numeric prefix (after leading
whitespace): optional sign, digits, optional fraction, optional exponent
(the `e` is only consumed when followed by at least one digit).  `none`
models NaN.  The `Infinity` literal never occurs in CSS values and is not
modelled. -/

/-- Exponent part of a JS numeral; returns the exponent and the rest
(consuming nothing when there is no well-formed exponent). -/
def parseExpPart (l : List Char) : ℤ × List Char :=
  match l with
  | c :: t =>
    if c = 'e' ∨ c = 'E' then
      let st : ℤ × List Char :=
        match t with
        | '+' :: u => (1, u)
        | '-' :: u => (-1, u)
        | _ => (1, t)
      let ed := st.2.takeWhile isDigitC
      if ed.isEmpty then (0, l) else (st.1 * (natOfDigits ed : ℤ), st.2.dropWhile isDigitC)
    else (0, l)
  | [] => (0, [])

/-- Mantissa and exponent after an optional sign has been consumed. -/
def parseAfterSign (sgn : ℚ) (l : List Char) : Option (ℚ × List Char) :=
  let ip := l.takeWhile isDigitC
  let r1 := l.dropWhile isDigitC
  let fpr : List Char × List Char :=
    if r1.head? = some '.' then (r1.tail.takeWhile isDigitC, r1.tail.dropWhile isDigitC)
    else ([], r1)
  if ip.isEmpty ∧ fpr.1.isEmpty then none
  else
    let er := parseExpPart fpr.2
    some (sgn * ((natOfDigits ip : ℚ) + (natOfDigits fpr.1 : ℚ) / 10 ^ fpr.1.length)
            * (10 : ℚ) ^ er.1, er.2)

/-- JS `parseFloat` on a character list: value and unconsumed rest. -/
def parseNum (l0 : List Char) : Option (ℚ × List Char) :=
  let l := l0.dropWhile isWSChar
  if l.head? = some '+' then parseAfterSign 1 l.tail
  else if l.head? = some '-' then parseAfterSign (-1) l.tail
  else parseAfterSign 1 l

/-- JS `parseFloat` (NaN = `none`). -/
def parseFloatJS (s : String) : JSNum := (parseNum s.data).map (·.1)

/-- JS `parseInt(s, 10)` (NaN = `none`): optional sign then leading digits. -/
def parseIntJS (s : String) : Option ℤ :=
  let go : List Char → Option ℤ := fun l =>
    let sd : ℤ × List Char :=
      match l with
      | '+' :: t => (1, t)
      | '-' :: t => (-1, t)
      | _ => (1, l)
    let ds := sd.2.takeWhile isDigitC
    if ds.isEmpty then none else some (sd.1 * (natOfDigits ds : ℤ))
  go (s.data.dropWhile isWSChar)

/-- JS `parseInt(s, 16)` (NaN = `none`): optional sign, optional `0x`/`0X`
prefix, then leading hex digits. -/
def parseIntHexJS (s : String) : Option ℤ :=
  let l0 := s.data.dropWhile isWSChar
  let sd : ℤ × List Char :=
    if l0.head? = some '+' then (1, l0.tail)
    else if l0.head? = some '-' then (-1, l0.tail)
    else (1, l0)
  let l1 : List Char :=
    if sd.2.head? = some '0' ∧ sd.2.tail.head? = some 'x' then sd.2.tail.tail
    else if sd.2.head? = some '0' ∧ sd.2.tail.head? = some 'X' then sd.2.tail.tail
    else sd.2
  let ds := l1.takeWhile isHexC
  if ds.isEmpty then none
  else some (sd.1 * (ds.foldl (fun a c => a * 16 + (hexValC c).getD 0) 0 : ℕ))

/-! ## Style value translators — `src/utils/css.ts` -/

/-- Truthiness of the optional `parentSize` argument (`undefined`, `0`
are falsy). -/
def psTruthy (ps : Option ℚ) : Bool :=
  match ps with
  | some p => decide (p ≠ 0)
  | none => false

/-- `parseCSSLength(value, parentSize)` from `src/utils/css.ts`. -/
def parseCSSLength (value : Option String) (parentSize : Option ℚ) : ℚ :=
  match value with
  | none => 0
  | some v =>
    if v = "" ∨ v = "auto" ∨ v = "none" then 0
    else
      match parseNum v.data with
      | none => 0
      | some nr =>
        let num := nr.1
        if endsWithJS v "px" then num
        else if endsWithJS v "rem" then num * 16
        else if endsWithJS v "em" then num * 16
        else if endsWithJS v "%" && psTruthy parentSize then
          (num / 100) * parentSize.getD 0
        else if endsWithJS v "vw" then (num / 100) * 1440
        else if endsWithJS v "vh" then (num / 100) * 900
        else if endsWithJS v "pt" then num * (4 / 3)
        else num

example : parseCSSLength (some "12px") none = 12 := by with_unfolding_all decide
example : parseCSSLength (some "2rem") none = 32 := by with_unfolding_all decide
example : parseCSSLength (some "50%") (some 200) = 100 := by with_unfolding_all decide
example : parseCSSLength (some "50%") none = 50 := by with_unfolding_all decide
example : parseCSSLength (some "50%") (some 0) = 50 := by with_unfolding_all decide
example : parseCSSLength (some "auto") none = 0 := by with_unfolding_all decide
example : parseCSSLength (some "1.5") none = 3 / 2 := by with_unfolding_all decide
example : parseCSSLength (some "3pt") none = 4 := by with_unfolding_all decide
example : parseCSSLength (some "10vw") none = 144 := by with_unfolding_all decide

/-- Rendering of a decimal numeral: optional minus sign, integer digits,
optional dot and fraction digits. -/
def numStr : Bool → List Char → List Char → String
  | true, ip, fp => ⟨'-' :: (ip ++ (if fp = [] then [] else '.' :: fp))⟩
  | false, ip, fp => ⟨ip ++ (if fp = [] then [] else '.' :: fp)⟩

/-- The rational value denoted by such a numeral. -/
def numVal : Bool → List Char → List Char → ℚ
  | true, ip, fp => -((natOfDigits ip : ℚ) + (natOfDigits fp : ℚ) / 10 ^ fp.length)
  | false, ip, fp => (natOfDigits ip : ℚ) + (natOfDigits fp : ℚ) / 10 ^ fp.length

/-- Well-formedness of a rendered numeral: both parts all digits, not both
empty. -/
def numeralOK (ip fp : List Char) : Prop :=
  (∀ c ∈ ip, isDigitC c = true) ∧ (∀ c ∈ fp, isDigitC c = true) ∧
    ¬(ip = [] ∧ fp = [])

instance (ip fp : List Char) : Decidable (numeralOK ip fp) := by
  unfold numeralOK; infer_instance

/-- Association-list lookup (JS object property access; keys are unique
in every map the source builds, so first-match lookup is exact). -/
def assoc {β : Type} (l : List (String × β)) (k : String) : Option β :=
  match l with
  | [] => none
  | p :: rest => if p.1 = k then some p.2 else assoc rest k

/-- `parseFontWeight(weight)` from `src/utils/css.ts`. -/
def fontWeightMap : List (String × ℤ) :=
  [("thin", 100), ("hairline", 100), ("extralight", 200), ("ultralight", 200),
   ("light", 300), ("normal", 400), ("regular", 400), ("medium", 500),
   ("semibold", 600), ("demibold", 600), ("bold", 700), ("extrabold", 800),
   ("ultrabold", 800), ("black", 900), ("heavy", 900)]

def parseFontWeight (weight : Option String) : ℤ :=
  match weight with
  | none => 400
  | some w =>
    if w = "" then 400
    else
      let lower : String := ⟨((toLowerJS w).data.filter (fun c => c ≠ '-' ∧ c ≠ ' '))⟩
      match assoc fontWeightMap lower with
      | some v => v
      | none =>
        match parseIntJS w with
        | some n => n
        | none => 400

inductive TextAlignH where
  | LEFT | CENTER | RIGHT | JUSTIFIED
  deriving DecidableEq, Repr

/-- `mapTextAlign(align)` from `src/utils/css.ts`. -/
def mapTextAlign (align : Option String) : TextAlignH :=
  match align with
  | some "center" => .CENTER
  | some "right" => .RIGHT
  | some "end" => .RIGHT
  | some "justify" => .JUSTIFIED
  | _ => .LEFT

inductive TextDeco where
  | NONE | UNDERLINE | STRIKETHROUGH
  deriving DecidableEq, Repr

/-- `mapTextDecoration(decoration)` from `src/utils/css.ts`. -/
def mapTextDecoration (decoration : Option String) : TextDeco :=
  match decoration with
  | none => .NONE
  | some d =>
    if d = "" then .NONE
    else if includesJS d "underline" then .UNDERLINE
    else if includesJS d "line-through" then .STRIKETHROUGH
    else .NONE

inductive TextCaseE where
  | ORIGINAL | UPPER | LOWER | TITLE
  deriving DecidableEq, Repr

/-- `mapTextCase(transform)` from `src/utils/css.ts`. -/
def mapTextCase (transform : Option String) : TextCaseE :=
  match transform with
  | some "uppercase" => .UPPER
  | some "lowercase" => .LOWER
  | some "capitalize" => .TITLE
  | _ => .ORIGINAL

/-- The `ParsedShadow` interface from `src/utils/css.ts`; numeric fields
are `parseFloat` results, hence possibly NaN. -/
structure ParsedShadow where
  offsetX : JSNum
  offsetY : JSNum
  blur : JSNum
  spread : JSNum
  color : String
  inset : Bool
  deriving DecidableEq, Repr

/-- `splitShadows(shadow)`: split on commas at parenthesis depth zero. -/
def splitShadows (shadow : String) : List String :=
  let fin :=
    shadow.data.foldl
      (fun (acc : List String × ℤ × List Char) ch =>
        let depth0 := if ch = '(' then acc.2.1 + 1 else acc.2.1
        let depth := if ch = ')' then depth0 - 1 else depth0
        if ch = ',' ∧ depth = 0 then (acc.1 ++ [⟨acc.2.2⟩], depth, [])
        else (acc.1, depth, acc.2.2 ++ [ch]))
      ([], 0, [])
  if jsTrim ⟨fin.2.2⟩ = "" then fin.1 else fin.1 ++ [⟨fin.2.2⟩]

/-- JS `String.replace` with a string pattern: replace the first
occurrence only. -/
def replaceFirstL (pat repl : List Char) : List Char → List Char
  | [] => if pat.isPrefixOf ([] : List Char) then repl else []
  | c :: t =>
    if pat.isPrefixOf (c :: t) then repl ++ (c :: t).drop pat.length
    else c :: replaceFirstL pat repl t

def replaceFirst (s pat repl : String) : String := ⟨replaceFirstL pat.data repl.data s.data⟩

/-- `\( [^)]+ \)` — a parenthesised chunk with a non-empty body;
returns the consumed characters and the rest. -/
def parenChunk (l : List Char) : Option (List Char × List Char) :=
  match l with
  | '(' :: t =>
    let body := t.takeWhile (fun c => c ≠ ')')
    (match t.dropWhile (fun c => c ≠ ')') with
     | ')' :: r2 => if body.isEmpty then none else some ('(' :: body ++ [')'], r2)
     | _ => none)
  | _ => none

/-- One attempt of the regex `rgba?\([^)]+\)|hsla?\([^)]+\)` at the head
of the list (the `a?` is greedy with backtracking, as in JS). -/
def fnColorAt (l : List Char) : Option (List Char) :=
  match l with
  | 'r' :: 'g' :: 'b' :: t =>
    (match t with
     | 'a' :: t2 => (parenChunk t2).map (fun pr => 'r' :: 'g' :: 'b' :: 'a' :: pr.1)
     | _ => none) <|>
    (parenChunk t).map (fun pr => 'r' :: 'g' :: 'b' :: pr.1)
  | 'h' :: 's' :: 'l' :: t =>
    (match t with
     | 'a' :: t2 => (parenChunk t2).map (fun pr => 'h' :: 's' :: 'l' :: 'a' :: pr.1)
     | _ => none) <|>
    (parenChunk t).map (fun pr => 'h' :: 's' :: 'l' :: pr.1)
  | _ => none

/-- Leftmost match of the colour-function regex. -/
def scanFnColor : List Char → Option (List Char)
  | [] => none
  | c :: t => fnColorAt (c :: t) <|> scanFnColor t

/-- One attempt of `#[0-9a-fA-F]{3,8}` at the head of the list. -/
def hexAt (l : List Char) : Option (List Char) :=
  match l with
  | '#' :: t =>
    let ds := t.takeWhile isHexC
    if ds.length ≥ 3 then some ('#' :: ds.take 8) else none
  | _ => none

/-- Leftmost match of the hex-colour regex. -/
def scanHex : List Char → Option (List Char)
  | [] => none
  | c :: t => hexAt (c :: t) <|> scanHex t

/-- Body of a `-?[\d.]+px` match after the optional sign: digit/dot run
then the literal `px`. -/
def pxTokenBody (sgn t : List Char) : Option (List Char × List Char) :=
  let ds := t.takeWhile (fun c => isDigitC c || c = '.')
  if ds.isEmpty then none
  else
    match t.drop ds.length with
    | 'p' :: 'x' :: r => some (sgn ++ ds ++ ['p', 'x'], r)
    | _ => none

/-- One attempt of `-?[\d.]+px` at the head of the list; returns the
match and the rest. -/
def pxTokenAt (l : List Char) : Option (List Char × List Char) :=
  if l.head? = some '-' then pxTokenBody ['-'] l.tail else pxTokenBody [] l

theorem pxTokenBody_rest_lt (sgn t m r : List Char)
    (h : pxTokenBody sgn t = some (m, r)) : r.length < t.length := by
  unfold pxTokenBody at h
  simp only at h
  split at h
  · exact absurd h (by simp)
  · split at h
    · rename_i r' hd
      have hlen := congrArg List.length hd
      simp only [List.length_drop, List.length_cons] at hlen
      have hr : r = r' := by
        simp only [Option.some.injEq, Prod.mk.injEq] at h
        exact h.2.symm
      subst hr
      omega
    · exact absurd h (by simp)

theorem pxTokenAt_rest_lt (l m r : List Char) (h : pxTokenAt l = some (m, r)) :
    r.length < l.length := by
  unfold pxTokenAt at h
  split at h
  · rename_i hn
    have h1 := pxTokenBody_rest_lt _ _ _ _ h
    have h0 : l ≠ [] := by
      intro he
      rw [he] at hn
      simp at hn
    have h2 : l.tail.length = l.length - 1 := List.length_tail l
    have h3 : 0 < l.length := List.length_pos.mpr h0
    omega
  · exact pxTokenBody_rest_lt _ _ _ _ h

/-- All non-overlapping leftmost matches of `-?[\d.]+px` (the `g` flag). -/
def pxTokens : List Char → List String
  | [] => []
  | c :: t =>
    match hm : pxTokenAt (c :: t) with
    | some pr => (⟨pr.1⟩ : String) :: pxTokens pr.2
    | none => pxTokens t
termination_by l => l.length
decreasing_by
  · exact pxTokenAt_rest_lt _ _ _ hm
  · simp

/-- The colour extraction of `parseSingleShadow`: the colour (function
form first, then hex, then the default) and the remaining string. -/
def shadowColorRest (shadow : String) : String × String :=
  let cleaned := jsTrim (replaceFirst shadow "inset" "")
  match scanFnColor cleaned.data with
  | some m => (⟨m⟩, jsTrim (replaceFirst cleaned ⟨m⟩ ""))
  | none =>
    match scanHex cleaned.data with
    | some m => (⟨m⟩, jsTrim (replaceFirst cleaned ⟨m⟩ ""))
    | none => ("rgba(0,0,0,0.25)", cleaned)

/-- `parseSingleShadow(shadow)` from `src/utils/css.ts`. -/
def parseSingleShadow (shadow : String) : Option ParsedShadow :=
  let inset := includesJS shadow "inset"
  let cr : String × String := shadowColorRest shadow
  let nums := pxTokens cr.2.data
  match nums with
  | n0 :: n1 :: rest =>
    some { offsetX := parseFloatJS n0
           offsetY := parseFloatJS n1
           blur := match rest with
                   | b :: _ => parseFloatJS b
                   | [] => some 0
           spread := match rest with
                     | _ :: sp :: _ => parseFloatJS sp
                     | _ => some 0
           color := cr.1
           inset := inset }
  | _ => none

/-- `parseBoxShadow(shadow)` from `src/utils/css.ts`. -/
def parseBoxShadow (shadow : Option String) : List ParsedShadow :=
  match shadow with
  | none => []
  | some s =>
    if s = "" ∨ s = "none" then []
    else (splitShadows s).filterMap (fun part => parseSingleShadow (jsTrim part))

/-- `getFigmaFontStyle(weight, italic)` from `src/utils/css.ts`. -/
def weightNames : List (ℤ × String) :=
  [(100, "Thin"), (200, "ExtraLight"), (300, "Light"), (400, "Regular"),
   (500, "Medium"), (600, "SemiBold"), (700, "Bold"), (800, "ExtraBold"),
   (900, "Black")]

def getFigmaFontStyle (weight : ℤ) (italic : Bool) : String :=
  let ws : List ℤ := weightNames.map (·.1)
  let closest : ℤ :=
    match ws with
    | [] => 0
    | h :: t =>
      t.foldl (fun prev curr =>
        if (curr - weight).natAbs < (prev - weight).natAbs then curr else prev) h
  let name := ((weightNames.find? (fun p => p.1 = closest)).map (·.2)).getD "Regular"
  if italic then name ++ " Italic" else name

example : parseBoxShadow (some "rgba(0,0,0,0.5) 2px 4px 8px 0px") =
    [⟨some 2, some 4, some 8, some 0, "rgba(0,0,0,0.5)", false⟩] := by
  with_unfolding_all decide

example : parseBoxShadow (some "inset 0px 0px 4px red") =
    [⟨some 0, some 0, some 4, some 0, "rgba(0,0,0,0.25)", true⟩] := by
  with_unfolding_all decide

example : parseFontWeight (some "bold") = 700 := by with_unfolding_all decide
example : parseFontWeight (some "550") = 550 := by with_unfolding_all decide
example : getFigmaFontStyle 650 true = "SemiBold Italic" := by with_unfolding_all decide
example : getFigmaFontStyle 420 false = "Regular" := by with_unfolding_all decide

/-! ## Colour translators — `src/utils/color.ts` -/

/-- `FigmaRGBA` from `src/utils/color.ts`; components are JS numbers in
[0,1] on valid input but may be NaN on garbage input. -/
structure FigmaRGBA where
  r : JSNum
  g : JSNum
  b : JSNum
  a : JSNum
  deriving DecidableEq, Repr

def jsAdd (a b : JSNum) : JSNum := do pure ((← a) + (← b))
def jsSub (a b : JSNum) : JSNum := do pure ((← a) - (← b))
def jsMul (a b : JSNum) : JSNum := do pure ((← a) * (← b))

/-- Division by a nonzero constant (every division in the colour code has
a fixed nonzero divisor). -/
def jsDivC (a : JSNum) (d : ℚ) : JSNum := a.map (· / d)

def jsDivOpt (o : Option ℤ) (d : ℚ) : JSNum := o.map (fun z => (z : ℚ) / d)

/-- JS `String.prototype.substring(a, b)` for `a ≤ b` (the only way the
source calls it). -/
def jsSubstring (s : String) (a b : ℕ) : String := ⟨(s.data.drop a).take (b - a)⟩

def NAMED_COLORS : List (String × String) :=
  [("transparent", "rgba(0,0,0,0)"), ("black", "#000000"), ("white", "#ffffff"),
   ("red", "#ff0000"), ("green", "#008000"), ("blue", "#0000ff"),
   ("yellow", "#ffff00"), ("cyan", "#00ffff"), ("magenta", "#ff00ff"),
   ("gray", "#808080"), ("grey", "#808080"), ("silver", "#c0c0c0"),
   ("maroon", "#800000"), ("olive", "#808000"), ("lime", "#00ff00"),
   ("aqua", "#00ffff"), ("teal", "#008080"), ("navy", "#000080"),
   ("fuchsia", "#ff00ff"), ("purple", "#800080"), ("orange", "#ffa500"),
   ("pink", "#ffc0cb"), ("brown", "#a52a2a"), ("coral", "#ff7f50"),
   ("crimson", "#dc143c"), ("darkblue", "#00008b"), ("darkgray", "#a9a9a9"),
   ("darkgreen", "#006400"), ("darkred", "#8b0000"), ("gold", "#ffd700"),
   ("indigo", "#4b0082"), ("ivory", "#fffff0"), ("khaki", "#f0e68c"),
   ("lavender", "#e6e6fa"), ("lightblue", "#add8e6"), ("lightgray", "#d3d3d3"),
   ("lightgreen", "#90ee90"), ("lightyellow", "#ffffe0"), ("linen", "#faf0e6"),
   ("mintcream", "#f5fffa"), ("mistyrose", "#ffe4e1"), ("moccasin", "#ffe4b5"),
   ("oldlace", "#fdf5e6"), ("orangered", "#ff4500"), ("orchid", "#da70d6"),
   ("peachpuff", "#ffdab9"), ("peru", "#cd853f"), ("plum", "#dda0dd"),
   ("powderblue", "#b0e0e6"), ("rosybrown", "#bc8f8f"), ("royalblue", "#4169e1"),
   ("salmon", "#fa8072"), ("sandybrown", "#f4a460"), ("seagreen", "#2e8b57"),
   ("sienna", "#a0522d"), ("skyblue", "#87ceeb"), ("slateblue", "#6a5acd"),
   ("slategray", "#708090"), ("snow", "#fffafa"), ("steelblue", "#4682b4"),
   ("tan", "#d2b48c"), ("thistle", "#d8bfd8"), ("tomato", "#ff6347"),
   ("turquoise", "#40e0d0"), ("violet", "#ee82ee"), ("wheat", "#f5deb3"),
   ("whitesmoke", "#f5f5f5"), ("yellowgreen", "#9acd32")]

/-- `parseHex(hex)` from `src/utils/color.ts`. -/
def parseHex (hex0 : String) : FigmaRGBA :=
  let hex1 := replaceFirst hex0 "#" ""
  let hex : List Char :=
    match hex1.data with
    | [a, b, c] => [a, a, b, b, c, c]
    | [a, b, c, d] => [a, a, b, b, c, c, d, d]
    | l => l
  let hs : String := ⟨hex⟩
  { r := jsDivOpt (parseIntHexJS (jsSubstring hs 0 2)) 255
    g := jsDivOpt (parseIntHexJS (jsSubstring hs 2 4)) 255
    b := jsDivOpt (parseIntHexJS (jsSubstring hs 4 6)) 255
    a := if hex.length = 8 then jsDivOpt (parseIntHexJS (jsSubstring hs 6 8)) 255
         else some 1 }

/-! ### The `rgb()`/`hsl()` regular expressions

`parseRgb` matches `rgba?\(\s*([\d.]+%?)\s*[,\s]\s*([\d.]+%?)\s*[,\s]\s*([\d.]+%?)\s*(?:[,/]\s*([\d.]+%?))?\s*\)`,
unanchored.  The matchers below implement the same leftmost-match /
greedy-with-backtracking semantics; in particular `\s*[,\s]\s*` accepts any
nonempty run of whitespace with at most one comma, and the optional alpha
group participates exactly when `[,/]` follows the third component. -/

/-- `[\d.]+%?` — returns the captured group (with its `%` if present) and
the rest. -/
def compAt (l : List Char) : Option (List Char × List Char) :=
  let ds := l.takeWhile (fun c => isDigitC c || c = '.')
  if ds.isEmpty then none
  else
    match l.drop ds.length with
    | '%' :: r => some (ds ++ ['%'], r)
    | r => some (ds, r)

/-- `[\d.]+` without the percent. -/
def numGroupAt (l : List Char) : Option (List Char × List Char) :=
  let ds := l.takeWhile (fun c => isDigitC c || c = '.')
  if ds.isEmpty then none else some (ds, l.drop ds.length)

/-- `\s*[,\s]\s*` — consumes a component separator, returning the rest. -/
def sepAt (l : List Char) : Option (List Char) :=
  let w1 := l.dropWhile isWSChar
  match w1 with
  | ',' :: t => some (t.dropWhile isWSChar)
  | _ => if l.length ≠ w1.length then some w1 else none

/-- `\s*(?:[,/]\s*([\d.]+%?))?\s*\)` — the optional alpha group and the
closing parenthesis. -/
def alphaTailAt (l : List Char) : Option (Option (List Char)) :=
  match l.dropWhile isWSChar with
  | ')' :: _ => some none
  | c :: t =>
    if c = ',' ∨ c = '/' then
      match compAt (t.dropWhile isWSChar) with
      | some gr =>
        (match gr.2.dropWhile isWSChar with
         | ')' :: _ => some (some gr.1)
         | _ => none)
      | none => none
    else none
  | [] => none

/-- The `rgb` regex at the head of the list: the four captured groups. -/
def rgbGroupsAt (l : List Char) :
    Option (List Char × List Char × List Char × Option (List Char)) :=
  match l with
  | 'r' :: 'g' :: 'b' :: t =>
    let t2 := if t.head? = some 'a' then t.tail else t
    (match t2 with
     | '(' :: u =>
       (match compAt (u.dropWhile isWSChar) with
        | some g1 =>
          (match sepAt g1.2 with
           | some r2 =>
             (match compAt r2 with
              | some g2 =>
                (match sepAt g2.2 with
                 | some r4 =>
                   (match compAt r4 with
                    | some g3 =>
                      (match alphaTailAt g3.2 with
                       | some ga => some (g1.1, g2.1, g3.1, ga)
                       | none => none)
                    | none => none)
                 | none => none)
              | none => none)
           | none => none)
        | none => none)
     | _ => none)
  | _ => none

def scanRgbGroups : List Char → Option (List Char × List Char × List Char × Option (List Char))
  | [] => none
  | c :: t => rgbGroupsAt (c :: t) <|> scanRgbGroups t

/-- `parseComponent` from `parseRgb`. -/
def parseComponent (val : String) : JSNum :=
  if endsWithJS val "%" then jsDivC (parseFloatJS val) 100
  else jsDivC (parseFloatJS val) 255

/-- `parseRgb(color)` from `src/utils/color.ts`. -/
def parseRgb (color : String) : Option FigmaRGBA :=
  match scanRgbGroups color.data with
  | none => none
  | some (g1, g2, g3, ga) =>
    some { r := parseComponent ⟨g1⟩
           g := parseComponent ⟨g2⟩
           b := parseComponent ⟨g3⟩
           a := match ga with
                | some g4 =>
                  if endsWithJS ⟨g4⟩ "%" then jsDivC (parseFloatJS ⟨g4⟩) 100
                  else parseFloatJS ⟨g4⟩
                | none => some 1 }

/-- The `hsl` regex at the head of the list (second and third groups have
a mandatory `%` after the group). -/
def hslGroupsAt (l : List Char) :
    Option (List Char × List Char × List Char × Option (List Char)) :=
  match l with
  | 'h' :: 's' :: 'l' :: t =>
    let t2 := if t.head? = some 'a' then t.tail else t
    (match t2 with
     | '(' :: u =>
       (match numGroupAt (u.dropWhile isWSChar) with
        | some g1 =>
          (match sepAt g1.2 with
           | some r2 =>
             (match numGroupAt r2 with
              | some g2 =>
                (match g2.2 with
                 | '%' :: r3 =>
                   (match sepAt r3 with
                    | some r4 =>
                      (match numGroupAt r4 with
                       | some g3 =>
                         (match g3.2 with
                          | '%' :: r5 =>
                            (match alphaTailAt r5 with
                             | some ga => some (g1.1, g2.1, g3.1, ga)
                             | none => none)
                          | _ => none)
                       | none => none)
                    | none => none)
                 | _ => none)
              | none => none)
           | none => none)
        | none => none)
     | _ => none)
  | _ => none

def scanHslGroups : List Char → Option (List Char × List Char × List Char × Option (List Char))
  | [] => none
  | c :: t => hslGroupsAt (c :: t) <|> scanHslGroups t

/-- `hue2rgb` from `hslToRgb`; NaN propagates and fails every comparison,
as in JS. -/
def hue2rgb (p q t0 : JSNum) : JSNum :=
  let t1 := if jsLt t0 (some 0) then jsAdd t0 (some 1) else t0
  let t := if jsLt (some 1) t1 then jsSub t1 (some 1) else t1
  if jsLt t (some (1 / 6)) then jsAdd p (jsMul (jsMul (jsSub q p) (some 6)) t)
  else if jsLt t (some (1 / 2)) then q
  else if jsLt t (some (2 / 3)) then
    jsAdd p (jsMul (jsMul (jsSub q p) (jsSub (some (2 / 3)) t)) (some 6))
  else p

/-- `hslToRgb(h, s, l)` from `src/utils/color.ts`. -/
def hslToRgb (h s l : JSNum) : JSNum × JSNum × JSNum :=
  if s = some 0 then (l, l, l)
  else
    let q := if jsLt l (some (1 / 2)) then jsMul l (jsAdd (some 1) s)
             else jsSub (jsAdd l s) (jsMul l s)
    let p := jsSub (jsMul (some 2) l) q
    (hue2rgb p q (jsAdd h (some (1 / 3))),
     hue2rgb p q h,
     hue2rgb p q (jsSub h (some (1 / 3))))

/-- `parseHsl(color)` from `src/utils/color.ts`. -/
def parseHsl (color : String) : Option FigmaRGBA :=
  match scanHslGroups color.data with
  | none => none
  | some (g1, g2, g3, ga) =>
    let h := jsDivC (parseFloatJS ⟨g1⟩) 360
    let s := jsDivC (parseFloatJS ⟨g2⟩) 100
    let l := jsDivC (parseFloatJS ⟨g3⟩) 100
    let a : JSNum :=
      match ga with
      | some g4 =>
        if endsWithJS ⟨g4⟩ "%" then jsDivC (parseFloatJS ⟨g4⟩) 100
        else parseFloatJS ⟨g4⟩
      | none => some 1
    let rgb := hslToRgb h s l
    some { r := rgb.1, g := rgb.2.1, b := rgb.2.2, a := a }

/-- `parseCSSColor(color)` from `src/utils/color.ts`. -/
def parseCSSColor (color0 : Option String) : Option FigmaRGBA :=
  match color0 with
  | none => none
  | some c0 =>
    if c0 = "" ∨ c0 = "transparent" ∨ c0 = "none" then none
    else
      let c1 := toLowerJS (jsTrim c0)
      let c2 := match assoc NAMED_COLORS c1 with
                | some v => v
                | none => c1
      if startsWithJS c2 "#" then some (parseHex c2)
      else if startsWithJS c2 "rgb" then parseRgb c2
      else if startsWithJS c2 "hsl" then parseHsl c2
      else none

/-- A colour component that is a definite number in `[0, 1]`. -/
def compIn01 (x : JSNum) : Prop := ∃ q : ℚ, x = some q ∧ 0 ≤ q ∧ q ≤ 1

/-- All four RGBA components in `[0, 1]`. -/
def rgbaIn01 (c : FigmaRGBA) : Prop :=
  compIn01 c.r ∧ compIn01 c.g ∧ compIn01 c.b ∧ compIn01 c.a

/-- `isTransparent(color)` from `src/utils/color.ts` (the float literal
`0.01` is the exact rational 1/100 here). -/
def isTransparent (color : Option FigmaRGBA) : Bool :=
  match color with
  | none => true
  | some c => jsLt c.a (some (1 / 100))

example : parseCSSColor (some "#abc") =
    some ⟨some (2/3), some (11/15), some (4/5), some 1⟩ := by with_unfolding_all decide
example : parseCSSColor (some "#abc") = parseCSSColor (some "#aabbcc") := by
  with_unfolding_all decide
example : parseCSSColor (some "rgba(0,0,0,0.5)") =
    some ⟨some 0, some 0, some 0, some (1/2)⟩ := by with_unfolding_all decide
example : parseCSSColor (some "red") = some ⟨some 1, some 0, some 0, some 1⟩ := by
  with_unfolding_all decide
example : parseCSSColor (some "hsl(120, 50%, 50%)") =
    some ⟨some (1/4), some (3/4), some (1/4), some 1⟩ := by with_unfolding_all decide
example : parseCSSColor (some "transparent") = none := by with_unfolding_all decide
example : parseCSSColor (some "blah") = none := by with_unfolding_all decide
example : parseCSSColor (some "rgb(50%, 100%, 0%)") =
    some ⟨some (1/2), some 1, some 0, some 1⟩ := by with_unfolding_all decide

/-! ## Linear gradients — `FigmaMapper.parseLinearGradient` in
`src/mapper/figma-mapper.ts`

The host converts the angle to a 2×3 affine transform with `Math.cos` /
`Math.sin`; that real-trigonometric step is outside the claims and the
parse result here keeps the angle in degrees together with the stops. -/

structure ColorStop where
  position : ℚ
  color : FigmaRGBA
  deriving DecidableEq, Repr

structure GradientLinear where
  angle : ℚ
  stops : List ColorStop
  deriving DecidableEq, Repr

/-- `splitGradientParts(args)`: split on top-level commas, trimming each
part. -/
def splitGradientParts (args : String) : List String :=
  let fin :=
    args.data.foldl
      (fun (acc : List String × ℤ × List Char) ch =>
        let depth0 := if ch = '(' then acc.2.1 + 1 else acc.2.1
        let depth := if ch = ')' then depth0 - 1 else depth0
        if ch = ',' ∧ depth = 0 then (acc.1 ++ [jsTrim ⟨acc.2.2⟩], depth, [])
        else (acc.1, depth, acc.2.2 ++ [ch]))
      ([], 0, [])
  if jsTrim ⟨fin.2.2⟩ = "" then fin.1 else fin.1 ++ [jsTrim ⟨fin.2.2⟩]

/-- The regex `linear-gradient\(([^)]+)\)` at the head of the list. -/
def lgAt (l : List Char) : Option (List Char) :=
  if ("linear-gradient(").data.isPrefixOf l then
    let t := l.drop 16
    let body := t.takeWhile (fun c => c ≠ ')')
    match t.dropWhile (fun c => c ≠ ')') with
    | ')' :: _ => if body.isEmpty then none else some body
    | _ => none
  else none

/-- Leftmost match of the gradient regex. -/
def scanLg : List Char → Option (List Char)
  | [] => none
  | c :: t => lgAt (c :: t) <|> scanLg t

/-- The anchored angle regex `^(\d+)deg$` (its capture, `parseFloat`ed,
is just the digits' value). -/
def angleDegMatch (p : String) : Option ℚ :=
  let ds := p.data.takeWhile isDigitC
  if ds.isEmpty then none
  else if p.data = ds ++ ['d', 'e', 'g'] then some (natOfDigits ds : ℚ) else none

/-- The leading-angle interpretation of `parseLinearGradient`: the angle
in degrees and the index at which the colour entries start. -/
def leadAngle (parts : List String) : ℚ × ℕ :=
  match parts.head? with
  | some p0 =>
    (match angleDegMatch p0 with
     | some a => (a, 1)
     | none =>
       if p0 = "to right" then (90, 1)
       else if p0 = "to left" then (270, 1)
       else if p0 = "to bottom" then (180, 1)
       else if p0 = "to top" then (0, 1)
       else (180, 0))
  | none => (180, 0)

/-- The colour-stop construction of `parseLinearGradient`: each part
that parses as a colour becomes a stop whose position is its index over
(number of parts − 1). -/
def gradStops (colorParts : List String) : List ColorStop :=
  colorParts.enum.filterMap (fun ic =>
    match parseCSSColor (some (jsTrim ic.2)) with
    | some col =>
      some { position := if colorParts.length > 1
                         then (ic.1 : ℚ) / ((colorParts.length - 1 : ℕ) : ℚ)
                         else 0
             color := col }
    | none => none)

/-- `parseLinearGradient(value)` from `src/mapper/figma-mapper.ts`. -/
def parseLinearGradient (value : String) : Option GradientLinear :=
  match scanLg value.data with
  | none => none
  | some body =>
    let parts := splitGradientParts ⟨body⟩
    if parts.length < 2 then none
    else
      let ac : ℚ × ℕ := leadAngle parts
      let stops : List ColorStop := gradStops (parts.drop ac.2)
      if stops.length < 2 then none else some { angle := ac.1, stops := stops }

example : parseLinearGradient "linear-gradient(90deg, red, blue)" =
    some { angle := 90,
           stops := [⟨0, ⟨some 1, some 0, some 0, some 1⟩⟩,
                     ⟨1, ⟨some 0, some 0, some 1, some 1⟩⟩] } := by
  with_unfolding_all decide

example : parseLinearGradient "linear-gradient(red)" = none := by
  with_unfolding_all decide

/-! ## Capture — `HTMLParser.serializeChildren` in
`src/parser/html-parser.ts`, and the browser-extension live-page variant
`serializeElement` in `chrome-extension/popup.js`. -/

structure BBox where
  x : ℚ
  y : ℚ
  width : ℚ
  height : ℚ
  deriving DecidableEq, Repr

/-- A style / attribute map: JS object with string values. -/
abbrev Styles := List (String × String)

/-- A serialized node (`SerializedElement` / `SerializedText` from
`src/types.ts`). -/
inductive SNode where
  | element (tag : String) (attributes : Styles) (computedStyle : Styles)
      (boundingBox : BBox) (children : List SNode)
  | text (content : String) (computedStyle : Styles) (boundingBox : BBox)
  deriving Repr

/-- A live DOM node as seen by the capture code: tag, attribute map,
computed style (keyed by kebab-case property names, as
`getPropertyValue` reads it), layout rectangle, children. -/
inductive DomNode where
  | element (tag : String) (attributes : Styles) (style : Styles)
      (rect : BBox) (children : List DomNode)
  | text (content : String) (rect : BBox)
  deriving Repr

/-- `getComputedStyle(...).getPropertyValue(k)` (empty string when the
property is untracked by the model). -/
def getPV (st : Styles) (k : String) : String := (assoc st k).getD ""

/-- `camelToKebab(str)` from `src/parser/html-parser.ts`. -/
def camelToKebab (s : String) : String :=
  ⟨s.data.foldr
    (fun c acc =>
      if 65 ≤ c.toNat ∧ c.toNat ≤ 90 then '-' :: toLowerC c :: acc else c :: acc) []⟩

/-- The tracked style properties of `HTMLParser.extractStyles`. -/
def trackedProps : List String :=
  ["display", "position", "flexDirection", "justifyContent", "alignItems",
   "flexWrap", "gap", "rowGap", "columnGap",
   "width", "height", "minWidth", "minHeight", "maxWidth", "maxHeight",
   "paddingTop", "paddingRight", "paddingBottom", "paddingLeft",
   "marginTop", "marginRight", "marginBottom", "marginLeft",
   "top", "right", "bottom", "left", "zIndex",
   "fontFamily", "fontSize", "fontWeight", "fontStyle",
   "lineHeight", "letterSpacing", "textAlign", "textDecoration", "textTransform",
   "color", "backgroundColor", "backgroundImage", "backgroundSize", "backgroundPosition",
   "borderTopWidth", "borderRightWidth", "borderBottomWidth", "borderLeftWidth",
   "borderTopColor", "borderRightColor", "borderBottomColor", "borderLeftColor",
   "borderTopStyle", "borderRightStyle", "borderBottomStyle", "borderLeftStyle",
   "borderTopLeftRadius", "borderTopRightRadius", "borderBottomRightRadius",
   "borderBottomLeftRadius",
   "opacity", "boxShadow", "overflow", "visibility", "objectFit"]

/-- JS object update `o[k] = v`, modelled up to key order (which no
lookup observes): the binding is placed in front and any previous
binding for `k` is dropped. -/
def setKV (l : Styles) (k v : String) : Styles :=
  (k, v) :: l.filter (fun p => p.1 ≠ k)

/-- Filter a style map over a property list, skipping sentinel values,
then force `display` and `position` (shared shape of both
`extractStyles` implementations). -/
def extractOver (props : List String) (st : Styles) : Styles :=
  let base := props.filterMap (fun prop =>
    let v := getPV st (camelToKebab prop)
    if v ≠ "" ∧ v ≠ "none" ∧ v ≠ "normal" ∧ v ≠ "auto" then some (prop, v) else none)
  setKV (setKV base "display" (getPV st "display")) "position" (getPV st "position")

/-- `HTMLParser.extractStyles`. -/
def extractStyles (st : Styles) : Styles := extractOver trackedProps st

mutual
/-- The element branch of the `serializeChildren` loop in
`src/parser/html-parser.ts` (returns `none` when the child is pruned). -/
def serializeElChild : DomNode → Option SNode
  | .text _ _ => none
  | .element tag0 attrs st rect children =>
    let tag := toLowerJS tag0
    if getPV st "display" = "none" ∨ getPV st "visibility" = "hidden" then none
    else if tag = "script" ∨ tag = "style" ∨ tag = "link" ∨ tag = "meta" ∨
            tag = "noscript" then none
    else if rect.width = 0 ∧ rect.height = 0 then none
    else some (.element tag attrs (extractStyles st) rect (serializeChildren st children))

/-- `HTMLParser.serializeChildren(parent)`: `parentStyle` is the parent's
computed style (used for text children). -/
def serializeChildren (parentStyle : Styles) : List DomNode → List SNode
  | [] => []
  | c :: rest =>
    (match c with
     | .element .. => (serializeElChild c).toList
     | .text content rect =>
       let t := jsTrim content
       if t = "" then []
       else if rect.width = 0 ∧ rect.height = 0 then []
       else [.text t (extractStyles parentStyle) rect]) ++
    serializeChildren parentStyle rest
end

/-- `HTMLParser.serializeDOM(element)`: the root is serialized
unconditionally. -/
def serializeDOM : DomNode → Option SNode
  | .element tag0 attrs st rect children =>
    some (.element (toLowerJS tag0) attrs (extractStyles st) rect
      (serializeChildren st children))
  | .text _ _ => none

/-- The style properties extracted by the extension's `captureDOM`. -/
def extProps : List String :=
  ["display", "position", "flexDirection", "justifyContent", "alignItems",
   "flexWrap", "gap", "rowGap", "columnGap",
   "width", "height", "paddingTop", "paddingRight", "paddingBottom", "paddingLeft",
   "marginTop", "marginRight", "marginBottom", "marginLeft",
   "fontFamily", "fontSize", "fontWeight", "fontStyle",
   "lineHeight", "letterSpacing", "textAlign", "textDecoration", "textTransform",
   "color", "backgroundColor", "backgroundImage",
   "borderTopWidth", "borderRightWidth", "borderBottomWidth", "borderLeftWidth",
   "borderTopColor", "borderRightColor", "borderBottomColor", "borderLeftColor",
   "borderTopLeftRadius", "borderTopRightRadius", "borderBottomRightRadius",
   "borderBottomLeftRadius",
   "opacity", "boxShadow", "overflow", "visibility", "objectFit"]

mutual
/-- `serializeElement(element)` from `chrome-extension/popup.js`
(the live-page capture variant): visibility and zero-size checks come
first, and `iframe` is in the skipped tag set. -/
def serializeElementExt : DomNode → Option SNode
  | .text _ _ => none
  | .element tag0 attrs st rect children =>
    if getPV st "display" = "none" ∨ getPV st "visibility" = "hidden" then none
    else if rect.width = 0 ∧ rect.height = 0 then none
    else
      let tag := toLowerJS tag0
      if tag = "script" ∨ tag = "style" ∨ tag = "link" ∨ tag = "meta" ∨
         tag = "noscript" ∨ tag = "iframe" then none
      else
        let cs := extractOver extProps st
        some (.element tag attrs cs rect (serializeChildrenExt cs children))

/-- The child loop of the extension's `serializeElement` (`cs` is the
parent's already-extracted style, reused for text children; the
extension has no zero-size check for text). -/
def serializeChildrenExt (cs : Styles) : List DomNode → List SNode
  | [] => []
  | c :: rest =>
    (match c with
     | .element .. => (serializeElementExt c).toList
     | .text content rect =>
       let t := jsTrim content
       if t = "" then [] else [.text t cs rect]) ++
    serializeChildrenExt cs rest
end

mutual
/-- All element nodes of a serialized tree, at any depth, as
(tag, computedStyle, boundingBox) triples. -/
def allElems : SNode → List (String × Styles × BBox)
  | .text _ _ _ => []
  | .element tag _ cs bb children => (tag, cs, bb) :: allElemsList children

def allElemsList : List SNode → List (String × Styles × BBox)
  | [] => []
  | n :: rest => allElems n ++ allElemsList rest
end

/-! ## Mapper — `FigmaMapper` in `src/mapper/figma-mapper.ts`

Host side effects are explicit: `MapEnv.fetch` combines the network fetch
and `figma.createImage` (url ↦ image hash, `none` on a non-ok response,
thrown fetch, or decode failure), `MapEnv.fontAvail` is
`figma.loadFontAsync` success, `MapEnv.svgOk` is `figma.createNodeFromSvg`
success.  The per-run caches (`imageCache`, `fontLoadErrors`) are threaded
as `MapState`.  Progress reporting and `setPluginData` are observational
and not modelled. -/

structure MapEnv where
  fetch : String → Option String
  fontAvail : String → String → Bool
  svgOk : String → Bool

structure MapState where
  imageCache : List (String × String)
  fontLoadErrors : List String
  deriving DecidableEq, Repr

inductive LayoutMode where
  | HORIZONTAL | VERTICAL
  deriving DecidableEq, Repr

inductive PrimaryAlign where
  | MIN | CENTER | MAX | SPACE_BETWEEN
  deriving DecidableEq, Repr

inductive CounterAlign where
  | MIN | CENTER | MAX | BASELINE
  deriving DecidableEq, Repr

inductive SizingMode where
  | FIXED | HUG | FILL
  deriving DecidableEq, Repr

/-- The auto-layout fields `tryApplyAutoLayout` (and the two bespoke
auto-layout sites) assign on a frame.  `none`-valued fields were left at
the host default. -/
structure ALParams where
  layoutMode : LayoutMode
  primaryAxisAlignItems : PrimaryAlign
  counterAxisAlignItems : CounterAlign
  layoutWrap : Bool
  itemSpacing : ℚ
  counterAxisSpacing : Option ℚ
  paddingTop : ℚ
  paddingRight : ℚ
  paddingBottom : ℚ
  paddingLeft : ℚ
  layoutSizingHorizontal : Option SizingMode
  layoutSizingVertical : Option SizingMode
  deriving DecidableEq, Repr

/-- JS `a || b` on optional strings (empty string is falsy). -/
def jsOrStr (a b : Option String) : Option String :=
  match a with
  | some s => if s ≠ "" then some s else b
  | none => b

/-- `FigmaMapper.tryApplyAutoLayout(frame, style)`: `none` when the
display gate fails (the frame is left without layout parameters). -/
def tryApplyAutoLayout (style : Styles) : Option ALParams :=
  let display := assoc style "display"
  if display ≠ some "flex" ∧ display ≠ some "inline-flex" then none
  else
    let direction := assoc style "flexDirection"
    let layoutMode :=
      if direction = some "column" ∨ direction = some "column-reverse"
      then LayoutMode.VERTICAL else LayoutMode.HORIZONTAL
    let primary : PrimaryAlign :=
      let j := assoc style "justifyContent"
      if j = some "center" then .CENTER
      else if j = some "flex-end" ∨ j = some "end" then .MAX
      else if j = some "space-between" then .SPACE_BETWEEN
      else .MIN
    let counter : CounterAlign :=
      let ai := assoc style "alignItems"
      if ai = some "center" then .CENTER
      else if ai = some "flex-end" ∨ ai = some "end" then .MAX
      else if ai = some "baseline" then .BASELINE
      else .MIN
    let wrap := assoc style "flexWrap" = some "wrap" ∨ assoc style "flexWrap" = some "wrap-reverse"
    let gap := parseCSSLength (jsOrStr (assoc style "gap") (assoc style "columnGap")) none
    let caSpacing : Option ℚ :=
      if wrap then
        let rowGap := parseCSSLength (jsOrStr (assoc style "rowGap") (assoc style "gap")) none
        if rowGap > 0 then some rowGap else none
      else none
    some { layoutMode := layoutMode
           primaryAxisAlignItems := primary
           counterAxisAlignItems := counter
           layoutWrap := wrap
           itemSpacing := if gap > 0 then gap else 0
           counterAxisSpacing := caSpacing
           paddingTop := parseCSSLength (assoc style "paddingTop") none
           paddingRight := parseCSSLength (assoc style "paddingRight") none
           paddingBottom := parseCSSLength (assoc style "paddingBottom") none
           paddingLeft := parseCSSLength (assoc style "paddingLeft") none
           layoutSizingHorizontal := some .FIXED
           layoutSizingVertical := some .FIXED }

inductive Paint where
  | solid (r g b : JSNum) (opacity : Option JSNum)
  | image (imageHash : String)
  | gradientLinear (g : GradientLinear)
  deriving DecidableEq, Repr

inductive CornerRadius where
  | uniform (r : ℚ)
  | corners (tl tr br bl : ℚ)
  deriving DecidableEq, Repr

structure Stroke where
  r : JSNum
  g : JSNum
  b : JSNum
  opacity : JSNum
  weight : ℚ
  perSide : Option (ℚ × ℚ × ℚ × ℚ)
  deriving DecidableEq, Repr

structure EffectS where
  inner : Bool
  r : JSNum
  g : JSNum
  b : JSNum
  a : JSNum
  offsetX : JSNum
  offsetY : JSNum
  radius : JSNum
  spreadLen : JSNum
  deriving DecidableEq, Repr

/-- `FigmaMapper.applyBorderRadius(node, style)`. -/
def applyBorderRadius (style : Styles) : CornerRadius :=
  let tl := parseCSSLength (assoc style "borderTopLeftRadius") none
  let tr := parseCSSLength (assoc style "borderTopRightRadius") none
  let br := parseCSSLength (assoc style "borderBottomRightRadius") none
  let bl := parseCSSLength (assoc style "borderBottomLeftRadius") none
  if tl = tr ∧ tr = br ∧ br = bl then .uniform tl else .corners tl tr br bl

/-- `FigmaMapper.applyBorders(frame, style)`: `none` when no stroke is
assigned. -/
def applyBorders (style : Styles) : Option Stroke :=
  let topWidth := parseCSSLength (assoc style "borderTopWidth") none
  let rightWidth := parseCSSLength (assoc style "borderRightWidth") none
  let bottomWidth := parseCSSLength (assoc style "borderBottomWidth") none
  let leftWidth := parseCSSLength (assoc style "borderLeftWidth") none
  if topWidth = 0 ∧ rightWidth = 0 ∧ bottomWidth = 0 ∧ leftWidth = 0 then none
  else
    let borderColor := parseCSSColor
      (jsOrStr (assoc style "borderTopColor")
        (jsOrStr (assoc style "borderRightColor")
          (jsOrStr (assoc style "borderBottomColor") (assoc style "borderLeftColor"))))
    match borderColor with
    | none => none
    | some c =>
      if isTransparent (some c) then none
      else
        some { r := c.r, g := c.g, b := c.b, opacity := c.a
               weight := max topWidth (max rightWidth (max bottomWidth leftWidth))
               perSide :=
                 if topWidth ≠ rightWidth ∨ rightWidth ≠ bottomWidth ∨ bottomWidth ≠ leftWidth
                 then some (topWidth, rightWidth, bottomWidth, leftWidth)
                 else none }

/-- `FigmaMapper.applyBoxShadow(node, style)` (an empty list means the
effects were left untouched, which equals the host default). -/
def applyBoxShadow (style : Styles) : List EffectS :=
  let shadows := parseBoxShadow (assoc style "boxShadow")
  shadows.map (fun sh =>
    let col : FigmaRGBA :=
      match parseCSSColor (some sh.color) with
      | some c => c
      | none => ⟨some 0, some 0, some 0, some (1 / 4)⟩
    { inner := sh.inset, r := col.r, g := col.g, b := col.b, a := col.a
      offsetX := sh.offsetX, offsetY := sh.offsetY
      radius := sh.blur, spreadLen := sh.spread })

structure FrameProps where
  fills : List Paint
  opacity : Option ℚ
  radius : CornerRadius
  stroke : Option Stroke
  effects : List EffectS
  clipsContent : Bool
  deriving DecidableEq, Repr

/-- `FigmaMapper.applyFrameStyles(frame, style)`. -/
def applyFrameStyles (style : Styles) : FrameProps :=
  let bgColor := parseCSSColor (assoc style "backgroundColor")
  let fills0 : List Paint :=
    match bgColor with
    | some c => if isTransparent (some c) then [] else [Paint.solid c.r c.g c.b (some c.a)]
    | none => []
  let fills : List Paint :=
    match assoc style "backgroundImage" with
    | some bi =>
      if bi ≠ "" ∧ startsWithJS bi "linear-gradient" then
        match parseLinearGradient bi with
        | some g => [Paint.gradientLinear g]
        | none => fills0
      else fills0
    | none => fills0
  let opacity : Option ℚ :=
    match assoc style "opacity" with
    | some s =>
      if s ≠ "" then
        match parseFloatJS s with
        | some q => some q
        | none => none
      else none
    | none => none
  { fills := fills
    opacity := opacity
    radius := applyBorderRadius style
    stroke := applyBorders style
    effects := applyBoxShadow style
    clipsContent :=
      assoc style "overflow" = some "hidden" ∨ assoc style "overflow" = some "scroll" ∨
      assoc style "overflow" = some "auto" }

/-- `FigmaMapper.cleanFontFamily(fontFamily)`. -/
def fontMapJS : List (String × String) :=
  [("Arial", "Inter"), ("Helvetica", "Inter"), ("Helvetica Neue", "Inter"),
   ("-apple-system", "Inter"), ("BlinkMacSystemFont", "Inter"), ("Segoe UI", "Inter"),
   ("system-ui", "Inter"), ("sans-serif", "Inter"), ("serif", "Roboto Serif"),
   ("monospace", "Roboto Mono"), ("Times New Roman", "Roboto Serif"),
   ("Georgia", "Roboto Serif"), ("Courier New", "Roboto Mono"), ("Courier", "Roboto Mono")]

def cleanFontFamily (fontFamily : Option String) : String :=
  match fontFamily with
  | none => "Inter"
  | some f =>
    if f = "" then "Inter"
    else
      let first : String :=
        ⟨(jsTrim ⟨f.data.takeWhile (fun c => c ≠ ',')⟩).data.filter
          (fun c => c ≠ '"' ∧ c ≠ '\'')⟩
      match assoc fontMapJS first with
      | some m => m
      | none => first

/-- The font family and Figma style name derived at the start of
`loadFont` and `applyTextStyles`. -/
def deriveFont (style : Styles) : String × String :=
  (cleanFontFamily (assoc style "fontFamily"),
   getFigmaFontStyle (parseFontWeight (assoc style "fontWeight"))
     (assoc style "fontStyle" = some "italic"))

/-- The attempt sequence of `FigmaMapper.loadFont` after the font
derivation: returns the ordered `figma.loadFontAsync` attempts and the
updated `fontLoadErrors` set. -/
def loadFontGo (avail : String → String → Bool) (errors : List String)
    (fontFamily fontStyle : String) : List (String × String) × List String :=
  let key := fontFamily ++ "::" ++ fontStyle
  if errors.contains key then
    ([("Inter", "Regular")], errors)
  else if avail fontFamily fontStyle then
    ([(fontFamily, fontStyle)], errors)
  else
    let errors2 := errors ++ [key]
    if avail fontFamily "Regular" then
      ([(fontFamily, fontStyle), (fontFamily, "Regular")], errors2)
    else
      ([(fontFamily, fontStyle), (fontFamily, "Regular"), ("Inter", "Regular")], errors2)

/-- `FigmaMapper.loadFont(style)`. -/
def loadFont (env : MapEnv) (st : MapState) (style : Styles) :
    List (String × String) × MapState :=
  let fs := deriveFont style
  let r := loadFontGo env.fontAvail st.fontLoadErrors fs.1 fs.2
  (r.1, { st with fontLoadErrors := r.2 })

/-- `FigmaMapper.fetchImage(url)`: cache hit, else fetch and cache on
success; a non-ok response or a thrown fetch/decode yields `none` without
caching. -/
def fetchImage (env : MapEnv) (st : MapState) (url : String) :
    Option String × MapState :=
  match assoc st.imageCache url with
  | some h => (some h, st)
  | none =>
    match env.fetch url with
    | some h => (some h, { st with imageCache := st.imageCache ++ [(url, h)] })
    | none => (none, st)

/-- `FigmaMapper.generateNodeName(element)`. -/
def semanticTags : List (String × String) :=
  [("nav", "Navigation"), ("header", "Header"), ("footer", "Footer"), ("main", "Main"),
   ("aside", "Sidebar"), ("section", "Section"), ("article", "Article"), ("ul", "List"),
   ("ol", "List"), ("li", "ListItem"), ("button", "Button"), ("a", "Link"),
   ("form", "Form"), ("table", "Table"), ("thead", "TableHead"), ("tbody", "TableBody"),
   ("tr", "TableRow"), ("td", "TableCell"), ("th", "TableHeader")]

/-- JS `String.prototype.split` on a single character. -/
def splitCharL (sep : Char) : List Char → List (List Char)
  | [] => [[]]
  | c :: t =>
    match splitCharL sep t with
    | h :: rest => if c = sep then [] :: h :: rest else (c :: h) :: rest
    | [] => [[]]

def generateNodeName (tag : String) (attributes : Styles) : String :=
  let idAttr := assoc attributes "id"
  let classes : String :=
    match assoc attributes "class" with
    | some cl =>
      String.intercalate "."
        (((splitCharL ' ' cl.data).map (fun l => (⟨l⟩ : String))).filter (fun s => s ≠ "")
          |>.take 2)
    | none => ""
  match idAttr with
  | some i =>
    if i ≠ "" then tag ++ "#" ++ i
    else if classes ≠ "" then tag ++ "." ++ classes
    else ((assoc semanticTags tag).getD tag)
  | none =>
    if classes ≠ "" then tag ++ "." ++ classes
    else ((assoc semanticTags tag).getD tag)

/-- The text-node fields `applyTextStyles` assigns (plus the characters
and the host-dependent `fontName` try/catch: the assignment sticks only
when the host has the font, else the node keeps its default font). -/
structure TextProps where
  characters : String
  fontName : Option (String × String)
  fontSize : Option ℚ
  lineHeight : Option ℚ
  letterSpacing : Option ℚ
  fillColor : Option FigmaRGBA
  textAlignHorizontal : TextAlignH
  textDecoration : TextDeco
  textCase : TextCaseE
  deriving DecidableEq, Repr

/-- `FigmaMapper.applyTextStyles(text, style)`. -/
def applyTextStyles (avail : String → String → Bool) (style : Styles)
    (characters : String) : TextProps :=
  let fs := deriveFont style
  let fontSize := parseCSSLength (assoc style "fontSize") none
  { characters := characters
    fontName := if avail fs.1 fs.2 then some fs else none
    fontSize := if fontSize > 0 then some fontSize else none
    lineHeight :=
      match assoc style "lineHeight" with
      | some s =>
        if s ≠ "" then
          let lh := parseCSSLength (some s) none
          if lh > 0 then some lh else none
        else none
      | none => none
    letterSpacing :=
      match assoc style "letterSpacing" with
      | some s => if s ≠ "" then some (parseCSSLength (some s) none) else none
      | none => none
    fillColor := parseCSSColor (assoc style "color")
    textAlignHorizontal := mapTextAlign (assoc style "textAlign")
    textDecoration := mapTextDecoration (assoc style "textDecoration")
    textCase := mapTextCase (assoc style "textTransform") }

structure Geom where
  x : ℚ
  y : ℚ
  width : ℚ
  height : ℚ
  deriving DecidableEq, Repr

/-- The geometry every non-root node creator assigns:
`resize(max(round(w),1), max(round(h),1))`,
`x = round(bounds.x - parentBounds.x)`, `y = round(...)`.
(`Math.round` on ℚ is Mathlib `round`, i.e. `⌊x + 1/2⌋`, exactly the JS
behaviour.) -/
def relGeom (bounds parentBounds : BBox) : Geom :=
  { x := ((round (bounds.x - parentBounds.x) : ℤ) : ℚ)
    y := ((round (bounds.y - parentBounds.y) : ℤ) : ℚ)
    width := ((max (round bounds.width) 1 : ℤ) : ℚ)
    height := ((max (round bounds.height) 1 : ℤ) : ℚ) }

/-- The produced design node (`SceneNode` kinds the mapper creates).
`none`-valued fields were left at the host default. -/
inductive DNode where
  | frame (name : String) (geom : Geom) (props : FrameProps) (layout : Option ALParams)
      (sizingH sizingV : Option SizingMode) (children : List DNode)
  | textN (name : String) (geom : Option Geom) (tprops : TextProps)
      (autoResizeHeight : Bool) (sizingH sizingV : Option SizingMode)
  | rect (name : String) (geom : Geom) (fills : Option (List Paint))
      (radius : Option CornerRadius) (sizingH sizingV : Option SizingMode)
  | vector (name : String) (geom : Geom) (markup : String)
      (sizingH sizingV : Option SizingMode)
  deriving Repr

/-- The child mutation at the end of `tryApplyAutoLayout`: every child
with layout-sizing properties is forced to FIXED × FIXED. -/
def setFixedSizing : DNode → DNode
  | .frame n g p l _ _ ch => .frame n g p l (some .FIXED) (some .FIXED) ch
  | .textN n g t ar _ _ => .textN n g t ar (some .FIXED) (some .FIXED)
  | .rect n g f r _ _ => .rect n g f r (some .FIXED) (some .FIXED)
  | .vector n g m _ _ => .vector n g m (some .FIXED) (some .FIXED)

/-- `FigmaMapper.createTextNode(textNode, parentBounds)`. -/
def createTextNode (env : MapEnv) (st : MapState) (content : String) (style : Styles)
    (bounds parentBounds : BBox) : Option DNode × MapState :=
  if jsTrim content = "" then (none, st)
  else
    let st2 := (loadFont env st style).2
    (some (.textN (jsSubstring content 0 40) (some (relGeom bounds parentBounds))
      (applyTextStyles env.fontAvail style content) true none none), st2)

/-- `FigmaMapper.createImageNode(element, parentBounds)`.  When
`fetchImage` yields no hash the fills are left unset: `fetchImage`
catches its own errors and returns null, so the `catch` branch holding
the gray placeholder fill is unreachable. -/
def createImageNode (env : MapEnv) (st : MapState) (attributes style : Styles)
    (bounds parentBounds : BBox) : DNode × MapState :=
  let src := (assoc attributes "src").getD ""
  let name :=
    match assoc attributes "alt" with
    | some a => if a ≠ "" then a else "Image"
    | none => "Image"
  let fr : Option (List Paint) × MapState :=
    if src ≠ "" then
      match fetchImage env st src with
      | (some h, s2) => (some [Paint.image h], s2)
      | (none, s2) => (none, s2)
    else (none, st)
  (.rect name (relGeom bounds parentBounds) fr.1 (some (applyBorderRadius style))
    none none, fr.2)

mutual
/-- `FigmaMapper.reconstructSvgMarkup(element)`. -/
def reconstructSvgMarkup : SNode → String
  | .text _ _ _ => ""
  | .element tag attributes _ _ children =>
    let attrs := String.intercalate " "
      (attributes.map (fun kv => kv.1 ++ "=\"" ++ kv.2 ++ "\""))
    "<" ++ tag ++ " " ++ attrs ++ ">" ++ reconstructSvgList children ++ "</" ++ tag ++ ">"

def reconstructSvgList : List SNode → String
  | [] => ""
  | c :: rest =>
    (match c with
     | .element _ _ _ _ _ => reconstructSvgMarkup c
     | _ => "") ++ reconstructSvgList rest
end

/-- `FigmaMapper.createSvgNode(element, parentBounds)`. -/
def createSvgNode (env : MapEnv) (node : SNode) (parentBounds : BBox) : DNode :=
  match node with
  | .text _ _ _ => .rect "SVG (unsupported)" (relGeom ⟨0, 0, 0, 0⟩ parentBounds) none none none none
  | .element _ attributes _ bounds _ =>
    let svgMarkup := reconstructSvgMarkup node
    if env.svgOk svgMarkup then
      let name :=
        match assoc attributes "aria-label" with
        | some a => if a ≠ "" then a else "SVG"
        | none => "SVG"
      .vector name (relGeom bounds parentBounds) svgMarkup none none
    else
      .rect "SVG (unsupported)" (relGeom bounds parentBounds)
        (some [Paint.solid (some (85 / 100)) (some (85 / 100)) (some (85 / 100)) none])
        none none none

/-- `FigmaMapper.createFormElement(element, parentBounds)`. -/
def createFormElement (env : MapEnv) (st : MapState) (tag : String)
    (attributes style : Styles) (bounds parentBounds : BBox) : DNode × MapState :=
  let name := tag ++
    (match assoc attributes "type" with
     | some ty => if ty ≠ "" then "[" ++ ty ++ "]" else ""
     | none => "")
  let geom := relGeom bounds parentBounds
  let props := applyFrameStyles style
  let textValue := (jsOrStr (assoc attributes "placeholder") (assoc attributes "value")).getD ""
  if textValue ≠ "" then
    let st2 := (loadFont env st style).2
    let pl := parseCSSLength (assoc style "paddingLeft") none
    let pr := parseCSSLength (assoc style "paddingRight") none
    let layout : ALParams :=
      { layoutMode := .HORIZONTAL
        primaryAxisAlignItems := .MIN
        counterAxisAlignItems := .CENTER
        layoutWrap := false
        itemSpacing := 0
        counterAxisSpacing := none
        paddingTop := 0
        paddingRight := if pr ≠ 0 then pr else 8
        paddingBottom := 0
        paddingLeft := if pl ≠ 0 then pl else 8
        layoutSizingHorizontal := none
        layoutSizingVertical := none }
    let textChild : DNode :=
      .textN "" none (applyTextStyles env.fontAvail style textValue) false
        (some .FILL) none
    (.frame name geom props (some layout) none none [textChild], st2)
  else
    (.frame name geom props none none none [], st)

/-- `FigmaMapper.createHrNode(element, parentBounds)` (its height uses
`Math.round(h) || 1` before the max). -/
def createHrNode (style : Styles) (bounds parentBounds : BBox) : DNode :=
  let h0 : ℤ := round bounds.height
  let geom : Geom :=
    { x := ((round (bounds.x - parentBounds.x) : ℤ) : ℚ)
      y := ((round (bounds.y - parentBounds.y) : ℤ) : ℚ)
      width := ((max (round bounds.width) 1 : ℤ) : ℚ)
      height := ((max (if h0 = 0 then 1 else h0) 1 : ℤ) : ℚ) }
  let borderColor := parseCSSColor
    (jsOrStr (assoc style "borderTopColor") (assoc style "borderColor"))
  let bgColor := parseCSSColor (assoc style "backgroundColor")
  let color : FigmaRGBA :=
    match borderColor with
    | some c => c
    | none =>
      match bgColor with
      | some c => c
      | none => ⟨some (4 / 5), some (4 / 5), some (4 / 5), some 1⟩
  .rect "Divider" geom (some [Paint.solid color.r color.g color.b (some color.a)])
    none none none

/-- `FigmaMapper.createTextFrame(element, textContent, parentBounds)`. -/
def createTextFrame (env : MapEnv) (st : MapState) (tag : String)
    (attributes style : Styles) (bounds : BBox) (textContent : String)
    (parentBounds : BBox) : DNode × MapState :=
  let st2 := (loadFont env st style).2
  let layout : ALParams :=
    { layoutMode := .VERTICAL
      primaryAxisAlignItems := .MIN
      counterAxisAlignItems := .MIN
      layoutWrap := false
      itemSpacing := 0
      counterAxisSpacing := none
      paddingTop := parseCSSLength (assoc style "paddingTop") none
      paddingRight := parseCSSLength (assoc style "paddingRight") none
      paddingBottom := parseCSSLength (assoc style "paddingBottom") none
      paddingLeft := parseCSSLength (assoc style "paddingLeft") none
      layoutSizingHorizontal := some .FIXED
      layoutSizingVertical := some .HUG }
  let textChild : DNode :=
    .textN (jsSubstring textContent 0 40) none
      (applyTextStyles env.fontAvail style textContent) true (some .FILL) none
  (.frame (generateNodeName tag attributes) (relGeom bounds parentBounds)
    (applyFrameStyles style) (some layout) none none [textChild], st2)

def isTextNode : SNode → Bool
  | .text _ _ _ => true
  | .element _ _ _ _ _ => false

mutual
/-- `FigmaMapper.mapNode(node, parentBounds, onProgress)` (progress
reporting omitted). -/
def mapNode (env : MapEnv) (st : MapState) (node : SNode) (parentBounds : BBox) :
    Option DNode × MapState :=
  if isTextNode node then
    match node with
    | .text content cs bounds => createTextNode env st content cs bounds parentBounds
    | .element _ _ _ _ _ => (none, st)
  else mapElement env st node parentBounds
termination_by (sizeOf node, 1)

/-- `FigmaMapper.mapElement(element, parentBounds, onProgress)`. -/
def mapElement (env : MapEnv) (st : MapState) (node : SNode) (parentBounds : BBox) :
    Option DNode × MapState :=
  match node with
  | .text _ _ _ => (none, st)
  | .element tag attributes style bounds children =>
    if tag = "img" then
      let r := createImageNode env st attributes style bounds parentBounds
      (some r.1, r.2)
    else if tag = "svg" then
      (some (createSvgNode env node parentBounds), st)
    else if tag = "input" ∨ tag = "textarea" ∨ tag = "select" then
      let r := createFormElement env st tag attributes style bounds parentBounds
      (some r.1, r.2)
    else if tag = "hr" then
      (some (createHrNode style bounds parentBounds), st)
    else
      let hasOnlyText := children.length > 0 ∧
        children.all isTextNode ∧
        children.any (fun c =>
          match c with
          | .text t _ _ => jsTrim t ≠ ""
          | _ => false)
      if hasOnlyText then
        let textContent := String.intercalate " "
          (children.filterMap (fun c =>
            match c with
            | .text t _ _ => some t
            | _ => none))
        let r := createTextFrame env st tag attributes style bounds textContent parentBounds
        (some r.1, r.2)
      else
        let cr := mapChildren env st children bounds
        let layout := tryApplyAutoLayout style
        let kids := match layout with
                    | some _ => cr.1.map setFixedSizing
                    | none => cr.1
        (some (.frame (generateNodeName tag attributes) (relGeom bounds parentBounds)
          (applyFrameStyles style) layout none none kids), cr.2)
termination_by (sizeOf node, 0)

/-- The child loop of `mapElement` / `mapToFigma`: null results are not
appended. -/
def mapChildren (env : MapEnv) (st : MapState) (l : List SNode) (pb : BBox) :
    List DNode × MapState :=
  match l with
  | [] => ([], st)
  | c :: rest =>
    let r1 := mapNode env st c pb
    let r2 := mapChildren env r1.2 rest pb
    (r1.1.toList ++ r2.1, r2.2)
termination_by (sizeOf l, 0)
end

/-- `FigmaMapper.mapToFigma(dom, metadata)`: the root frame is resized
to `max(w, 1) × max(h, 1)` (no rounding), clips content, and its position
is assigned later by the plugin shell (0 here). -/
def mapToFigma (env : MapEnv) (st : MapState) (dom : SNode)
    (sourceHost : Option String) : Option DNode × MapState :=
  match dom with
  | .text _ _ _ => (none, st)
  | .element _ _ style bounds children =>
    let name :=
      match sourceHost with
      | some hn => "Import: " ++ hn
      | none => "HTML Import"
    let props0 := applyFrameStyles style
    let cr := mapChildren env st children bounds
    let layout := tryApplyAutoLayout style
    let kids := match layout with
                | some _ => cr.1.map setFixedSizing
                | none => cr.1
    (some (.frame name ⟨0, 0, max bounds.width 1, max bounds.height 1⟩
      { props0 with clipsContent := true } layout none none kids), cr.2)

/-- A host environment with failing side effects (nothing fetches, no
font, no SVG import) — used for concrete evaluations. -/
def env0 : MapEnv :=
  { fetch := fun _ => none, fontAvail := fun _ _ => false, svgOk := fun _ => false }

def st0 : MapState := { imageCache := [], fontLoadErrors := [] }

set_option maxRecDepth 10000 in
example :
    mapNode env0 st0
      (.element "div" [] [("display", "block")] ⟨21/2, 20, 502/5, 0⟩ []) ⟨0, 0, 0, 0⟩ =
    (some (.frame "div" ⟨11, 20, 100, 1⟩ ⟨[], none, .uniform 0, none, [], false⟩
      none none none []), st0) := by
  with_unfolding_all rfl

set_option maxRecDepth 10000 in
example :
    mapNode env0 st0
      (.element "div" [] [("display", "flex"), ("justify-content", "space-around")]
        ⟨0, 0, 10, 10⟩ []) ⟨0, 0, 0, 0⟩ =
    (some (.frame "div" ⟨0, 0, 10, 10⟩ ⟨[], none, .uniform 0, none, [], false⟩
      (some { layoutMode := .HORIZONTAL, primaryAxisAlignItems := .MIN,
              counterAxisAlignItems := .MIN, layoutWrap := false, itemSpacing := 0,
              counterAxisSpacing := none, paddingTop := 0, paddingRight := 0,
              paddingBottom := 0, paddingLeft := 0,
              layoutSizingHorizontal := some .FIXED,
              layoutSizingVertical := some .FIXED })
      none none []), st0) := by
  with_unfolding_all rfl

/-! ## Claim theorems -/

/-- C5: Auto-layout inference applies only when a container's display is
'flex' or 'inline-flex' (any other display value yields no auto-layout
parameters at all); when it applies, flex-direction 'column' or
'column-reverse' yields a vertical primary axis and anything else
horizontal, and justify-content maps 'center' to center alignment,
'flex-end'/'end' to end alignment, 'space-between' to space-between, with
every other value (including 'space-around' and 'space-evenly') falling
through to the default start alignment. -/
theorem c5_auto_layout_inference :
    (∀ style : Styles, assoc style "display" ≠ some "flex" →
      assoc style "display" ≠ some "inline-flex" → tryApplyAutoLayout style = none) ∧
    (∀ style : Styles,
      (assoc style "display" = some "flex" ∨ assoc style "display" = some "inline-flex") →
      ∃ p : ALParams, tryApplyAutoLayout style = some p ∧
        (p.layoutMode = LayoutMode.VERTICAL ↔
          (assoc style "flexDirection" = some "column" ∨
           assoc style "flexDirection" = some "column-reverse")) ∧
        (assoc style "justifyContent" = some "center" →
          p.primaryAxisAlignItems = PrimaryAlign.CENTER) ∧
        ((assoc style "justifyContent" = some "flex-end" ∨
          assoc style "justifyContent" = some "end") →
          p.primaryAxisAlignItems = PrimaryAlign.MAX) ∧
        (assoc style "justifyContent" = some "space-between" →
          p.primaryAxisAlignItems = PrimaryAlign.SPACE_BETWEEN) ∧
        (assoc style "justifyContent" ≠ some "center" →
          assoc style "justifyContent" ≠ some "flex-end" →
          assoc style "justifyContent" ≠ some "end" →
          assoc style "justifyContent" ≠ some "space-between" →
          p.primaryAxisAlignItems = PrimaryAlign.MIN)) := by
  constructor
  · intro style h1 h2
    unfold tryApplyAutoLayout
    rw [if_pos ⟨h1, h2⟩]
  · intro style h
    unfold tryApplyAutoLayout
    rw [if_neg (by
      rcases h with h | h <;> simp [h])]
    refine ⟨_, rfl, ?_, ?_, ?_, ?_, ?_⟩
    · by_cases hd : assoc style "flexDirection" = some "column" ∨
        assoc style "flexDirection" = some "column-reverse"
      · simp [hd]
      · simp [hd]
    · intro hj
      simp [hj]
    · intro hj
      rcases hj with hj | hj <;> simp [hj]
    · intro hj
      simp [hj]
    · intro h1 h2 h3 h4
      simp [h1, h2, h3, h4]

/-- C5 witness: the spec's own test case — `display: flex;
flex-direction: column; justify-content: center` yields a vertical
primary axis with center alignment; `display: block` yields no
auto-layout parameters. -/
theorem c5_witness :
    tryApplyAutoLayout [("display", "block")] = none ∧
    ∃ p, tryApplyAutoLayout
        [("display", "flex"), ("flexDirection", "column"), ("justifyContent", "center")] =
        some p ∧ p.layoutMode = LayoutMode.VERTICAL ∧
        p.primaryAxisAlignItems = PrimaryAlign.CENTER := by
  constructor
  · exact c5_auto_layout_inference.1 _ (by decide) (by decide)
  · obtain ⟨p, hp, hiff, hc, _⟩ :=
      c5_auto_layout_inference.2
        [("display", "flex"), ("flexDirection", "column"), ("justifyContent", "center")]
        (Or.inl (by decide))
    exact ⟨p, hp, hiff.mpr (Or.inl (by decide)), hc (by decide)⟩

/-- C3 (amended): font resolution attempts exactly the derived
family+style; on failure it remembers the failed key, retries the same
family at "Regular", then falls back to the default family ("Inter") at
"Regular".  For a combination already remembered as failed in the current
run, the initial load is not re-attempted and ONLY the final fallback
(default family at "Regular") is attempted immediately — the intermediate
same-family-at-"Regular" step is skipped. -/
theorem c3_font_fallback_chain (avail : String → String → Bool)
    (errors : List String) (fam sty : String) :
    (errors.contains (fam ++ "::" ++ sty) = false → avail fam sty = true →
      loadFontGo avail errors fam sty = ([(fam, sty)], errors)) ∧
    (errors.contains (fam ++ "::" ++ sty) = false → avail fam sty = false →
      avail fam "Regular" = true →
      loadFontGo avail errors fam sty =
        ([(fam, sty), (fam, "Regular")], errors ++ [fam ++ "::" ++ sty])) ∧
    (errors.contains (fam ++ "::" ++ sty) = false → avail fam sty = false →
      avail fam "Regular" = false →
      loadFontGo avail errors fam sty =
        ([(fam, sty), (fam, "Regular"), ("Inter", "Regular")],
         errors ++ [fam ++ "::" ++ sty])) ∧
    (errors.contains (fam ++ "::" ++ sty) = true →
      loadFontGo avail errors fam sty = ([("Inter", "Regular")], errors)) := by
  refine ⟨?_, ?_, ?_, ?_⟩
  · intro h1 h2
    unfold loadFontGo
    simp only [h1, h2]
    simp
  · intro h1 h2 h3
    unfold loadFontGo
    simp only [h1, h2, h3]
    simp
  · intro h1 h2 h3
    unfold loadFontGo
    simp only [h1, h2, h3]
    simp
  · intro h1
    unfold loadFontGo
    simp only [h1]
    simp

/-- C3 witness: an unremembered, unavailable combination walks the full
three-step chain. -/
theorem c3_witness :
    (["Other::Bold"] : List String).contains ("Foo" ++ "::" ++ "Bold") = false ∧
    loadFontGo (fun _ _ => false) ["Other::Bold"] "Foo" "Bold" =
      ([("Foo", "Bold"), ("Foo", "Regular"), ("Inter", "Regular")],
       ["Other::Bold", "Foo::Bold"]) :=
  ⟨by decide,
   by
    have h := (c3_font_fallback_chain (fun _ _ => false) ["Other::Bold"] "Foo" "Bold").2.2.1
      (by decide) rfl rfl
    simpa using h⟩

/-- C3 counterexample to the claim as stated: for a remembered failed
combination the code jumps straight to `Inter Regular`; the same-family
"Regular" step is NOT attempted, even when that font is available. -/
theorem c3_counterexample :
    loadFontGo (fun f s => decide (f = "Foo" ∧ s = "Regular")) ["Foo::Bold"] "Foo" "Bold" =
      ([("Inter", "Regular")], ["Foo::Bold"]) ∧
    ("Foo", "Regular") ∉
      (loadFontGo (fun f s => decide (f = "Foo" ∧ s = "Regular"))
        ["Foo::Bold"] "Foo" "Bold").1 := by
  decide

/-- C4 (code divergence, evaluated): with a failing fetch, the image
rectangle is still created and positioned, the cache is unchanged, but
its fills are left UNSET — not the claimed light-gray solid fill, because
`fetchImage` returns null instead of throwing, so `createImageNode`'s
`catch` (which holds the gray fill) never runs.  Also: a cached URL is
answered from the cache without consulting the fetcher, but a FAILED url
is not cached, so only successful fetches happen at most once per URL. -/
theorem c4_image_failure_no_gray_fill :
    (createImageNode env0 st0 [("src", "https://example.com/a.png")] []
        ⟨10, 20, 50, 40⟩ ⟨0, 0, 0, 0⟩ =
      (DNode.rect "Image" ⟨10, 20, 50, 40⟩ none (some (.uniform 0)) none none, st0)) ∧
    (fetchImage { env0 with fetch := fun _ => some "other" }
        { st0 with imageCache := [("u", "h")] } "u" =
      (some "h", { st0 with imageCache := [("u", "h")] })) ∧
    (fetchImage env0 st0 "https://example.com/a.png" = (none, st0)) := by
  refine ⟨?_, ?_, ?_⟩ <;> with_unfolding_all rfl

/-! ### Support lemmas for the capture-pruning invariant (C2) -/

theorem assoc_setKV_self (l : Styles) (k v : String) : assoc (setKV l k v) k = some v := by
  simp [setKV, assoc]

theorem assoc_setKV_other (l : Styles) (k v k' : String) (h : k' ≠ k) :
    assoc (setKV l k v) k' = assoc l k' := by
  unfold setKV
  rw [assoc]
  rw [if_neg (by simpa using fun he => absurd he.symm h)]
  induction l with
  | nil => simp [assoc]
  | cons p rest ih =>
    by_cases hp : p.1 = k
    · rw [List.filter_cons_of_neg (by simpa using hp)]
      rw [assoc, if_neg (by rw [hp]; exact fun he => absurd he.symm h)]
      exact ih
    · rw [List.filter_cons_of_pos (by simpa using hp)]
      rw [assoc, assoc]
      by_cases hk : p.1 = k'
      · rw [if_pos hk, if_pos hk]
      · rw [if_neg hk, if_neg hk]
        exact ih

theorem assoc_filterMap_if {φ : String → Prop} [DecidablePred φ] (g : String → String)
    (props : List String) (k v : String)
    (h : assoc (props.filterMap (fun p => if φ p then some (p, g p) else none)) k
      = some v) : v = g k := by
  induction props with
  | nil => simp [assoc] at h
  | cons p rest ih =>
    rw [List.filterMap_cons] at h
    by_cases hφ : φ p
    · rw [if_pos hφ] at h
      rw [assoc] at h
      by_cases hp : p = k
      · rw [if_pos (by simpa using hp)] at h
        subst hp
        simpa using h.symm
      · rw [if_neg (by simpa using hp)] at h
        exact ih h
    · rw [if_neg hφ] at h
      exact ih h

theorem assoc_extractOver_display (props : List String) (st : Styles) :
    assoc (extractOver props st) "display" = some (getPV st "display") := by
  unfold extractOver
  rw [assoc_setKV_other _ _ _ _ (by decide), assoc_setKV_self]

theorem assoc_extractOver_visibility (props : List String) (st : Styles) (v : String)
    (h : assoc (extractOver props st) "visibility" = some v) :
    v = getPV st "visibility" := by
  unfold extractOver at h
  rw [assoc_setKV_other _ _ _ _ (by decide), assoc_setKV_other _ _ _ _ (by decide)] at h
  have hv := assoc_filterMap_if (fun p => getPV st (camelToKebab p)) props "visibility" v h
  rw [hv]
  rfl

def allElemsOpt : Option SNode → List (String × Styles × BBox)
  | some n => allElems n
  | none => []

theorem allElemsList_append (a b : List SNode) :
    allElemsList (a ++ b) = allElemsList a ++ allElemsList b := by
  induction a with
  | nil => simp [allElemsList]
  | cons n rest ih =>
    rw [List.cons_append, allElemsList, allElemsList, ih, List.append_assoc]

/-- The pruning invariant of a captured element against a tag set. -/
def prunedOK (tags : List String) (e : String × Styles × BBox) : Prop :=
  assoc e.2.1 "display" ≠ some "none" ∧
  assoc e.2.1 "visibility" ≠ some "hidden" ∧
  e.1 ∉ tags ∧
  ¬(e.2.2.width = 0 ∧ e.2.2.height = 0)

def captureSkipTags : List String := ["script", "style", "link", "meta", "noscript"]

def extSkipTags : List String :=
  ["script", "style", "link", "meta", "noscript", "iframe"]

theorem serializeChildren_nil (ps : Styles) : serializeChildren ps [] = [] := by
  rw [serializeChildren.eq_def]

theorem serializeChildren_cons (ps : Styles) (c : DomNode) (rest : List DomNode) :
    serializeChildren ps (c :: rest) =
    (match c with
     | .element _ _ _ _ _ => (serializeElChild c).toList
     | .text content rect =>
       let t := jsTrim content
       if t = "" then []
       else if rect.width = 0 ∧ rect.height = 0 then []
       else [.text t (extractStyles ps) rect]) ++
    serializeChildren ps rest := by
  rw [serializeChildren.eq_def]

mutual
theorem captureInv_el (c : DomNode) (e : String × Styles × BBox)
    (he : e ∈ allElemsOpt (serializeElChild c)) : prunedOK captureSkipTags e := by
  match c with
  | .text _ _ => simp [serializeElChild, allElemsOpt] at he
  | .element tag0 attrs st rect children =>
    rw [serializeElChild] at he
    by_cases h1 : getPV st "display" = "none" ∨ getPV st "visibility" = "hidden"
    · rw [if_pos h1] at he
      simp [allElemsOpt] at he
    · rw [if_neg h1] at he
      by_cases h2 : toLowerJS tag0 = "script" ∨ toLowerJS tag0 = "style" ∨
          toLowerJS tag0 = "link" ∨ toLowerJS tag0 = "meta" ∨ toLowerJS tag0 = "noscript"
      · rw [if_pos h2] at he
        simp [allElemsOpt] at he
      · rw [if_neg h2] at he
        by_cases h3 : rect.width = 0 ∧ rect.height = 0
        · rw [if_pos h3] at he
          simp [allElemsOpt] at he
        · rw [if_neg h3] at he
          rw [allElemsOpt, allElems] at he
          rcases List.mem_cons.mp he with he | he
          · subst he
            push_neg at h1 h2
            refine ⟨?_, ?_, ?_, h3⟩
            · show assoc (extractStyles st) "display" ≠ some "none"
              rw [extractStyles, assoc_extractOver_display]
              intro hc
              exact h1.1 (by simpa using hc)
            · show assoc (extractStyles st) "visibility" ≠ some "hidden"
              intro hc
              rw [extractStyles] at hc
              exact h1.2 (assoc_extractOver_visibility _ _ _ hc).symm
            · show toLowerJS tag0 ∉ captureSkipTags
              intro hm
              simp only [captureSkipTags, List.mem_cons, List.not_mem_nil, or_false]
                at hm
              rcases hm with hm | hm | hm | hm | hm
              · exact h2.1 hm
              · exact h2.2.1 hm
              · exact h2.2.2.1 hm
              · exact h2.2.2.2.1 hm
              · exact h2.2.2.2.2 hm
          · exact captureInv_list st children e he

theorem captureInv_list (ps : Styles) (l : List DomNode) (e : String × Styles × BBox)
    (he : e ∈ allElemsList (serializeChildren ps l)) : prunedOK captureSkipTags e := by
  match l with
  | [] =>
    rw [serializeChildren_nil] at he
    simp [allElemsList] at he
  | c :: rest =>
    rw [serializeChildren_cons, allElemsList_append] at he
    rcases List.mem_append.mp he with he | he
    · match c with
      | .element t a s r ch =>
        have hoeq : allElemsList (serializeElChild (.element t a s r ch)).toList =
            allElemsOpt (serializeElChild (.element t a s r ch)) := by
          cases h : serializeElChild (.element t a s r ch) <;>
            simp [allElemsOpt, allElemsList]
        simp only at he
        rw [hoeq] at he
        exact captureInv_el _ e he
      | .text content rect =>
        simp only at he
        by_cases ht : jsTrim content = ""
        · rw [if_pos ht] at he
          simp [allElemsList] at he
        · rw [if_neg ht] at he
          by_cases hz : rect.width = 0 ∧ rect.height = 0
          · rw [if_pos hz] at he
            simp [allElemsList] at he
          · rw [if_neg hz] at he
            simp [allElemsList, allElems] at he
    · exact captureInv_list ps rest e he
end

theorem serializeChildrenExt_nil (cs : Styles) : serializeChildrenExt cs [] = [] := by
  rw [serializeChildrenExt.eq_def]

theorem serializeChildrenExt_cons (cs : Styles) (c : DomNode) (rest : List DomNode) :
    serializeChildrenExt cs (c :: rest) =
    (match c with
     | .element _ _ _ _ _ => (serializeElementExt c).toList
     | .text content rect =>
       let t := jsTrim content
       if t = "" then [] else [.text t cs rect]) ++
    serializeChildrenExt cs rest := by
  rw [serializeChildrenExt.eq_def]

mutual
theorem captureInvExt_el (c : DomNode) (e : String × Styles × BBox)
    (he : e ∈ allElemsOpt (serializeElementExt c)) : prunedOK extSkipTags e := by
  match c with
  | .text _ _ => simp [serializeElementExt, allElemsOpt] at he
  | .element tag0 attrs st rect children =>
    rw [serializeElementExt] at he
    by_cases h1 : getPV st "display" = "none" ∨ getPV st "visibility" = "hidden"
    · rw [if_pos h1] at he
      simp [allElemsOpt] at he
    · rw [if_neg h1] at he
      by_cases h3 : rect.width = 0 ∧ rect.height = 0
      · rw [if_pos h3] at he
        simp [allElemsOpt] at he
      · rw [if_neg h3] at he
        by_cases h2 : toLowerJS tag0 = "script" ∨ toLowerJS tag0 = "style" ∨
            toLowerJS tag0 = "link" ∨ toLowerJS tag0 = "meta" ∨
            toLowerJS tag0 = "noscript" ∨ toLowerJS tag0 = "iframe"
        · rw [if_pos h2] at he
          simp [allElemsOpt] at he
        · rw [if_neg h2] at he
          rw [allElemsOpt, allElems] at he
          rcases List.mem_cons.mp he with he | he
          · subst he
            push_neg at h1 h2
            refine ⟨?_, ?_, ?_, h3⟩
            · show assoc (extractOver extProps st) "display" ≠ some "none"
              rw [assoc_extractOver_display]
              intro hc
              exact h1.1 (by simpa using hc)
            · show assoc (extractOver extProps st) "visibility" ≠ some "hidden"
              intro hc
              exact h1.2 (assoc_extractOver_visibility _ _ _ hc).symm
            · show toLowerJS tag0 ∉ extSkipTags
              intro hm
              simp only [extSkipTags, List.mem_cons, List.not_mem_nil, or_false] at hm
              rcases hm with hm | hm | hm | hm | hm | hm
              · exact h2.1 hm
              · exact h2.2.1 hm
              · exact h2.2.2.1 hm
              · exact h2.2.2.2.1 hm
              · exact h2.2.2.2.2.1 hm
              · exact h2.2.2.2.2.2 hm
          · exact captureInvExt_list (extractOver extProps st) children e he

theorem captureInvExt_list (cs : Styles) (l : List DomNode) (e : String × Styles × BBox)
    (he : e ∈ allElemsList (serializeChildrenExt cs l)) : prunedOK extSkipTags e := by
  match l with
  | [] =>
    rw [serializeChildrenExt_nil] at he
    simp [allElemsList] at he
  | c :: rest =>
    rw [serializeChildrenExt_cons, allElemsList_append] at he
    rcases List.mem_append.mp he with he | he
    · match c with
      | .element t a s r ch =>
        have hoeq : allElemsList (serializeElementExt (.element t a s r ch)).toList =
            allElemsOpt (serializeElementExt (.element t a s r ch)) := by
          cases h : serializeElementExt (.element t a s r ch) <;>
            simp [allElemsOpt, allElemsList]
        simp only at he
        rw [hoeq] at he
        exact captureInvExt_el _ e he
      | .text content rect =>
        simp only at he
        by_cases ht : jsTrim content = ""
        · rw [if_pos ht] at he
          simp [allElemsList] at he
        · rw [if_neg ht] at he
          simp [allElemsList, allElems] at he
    · exact captureInvExt_list cs rest e he
end

/-- C2 (amended): every element in the Capture output's child
subtrees, at any depth, has resolved display ≠ 'none', visibility ≠
'hidden', a tag outside {script, style, link, meta, noscript}, and not
both dimensions zero (pruning a subtree root prunes all its
descendants).  The `iframe` tag is additionally excluded in the
browser-extension live-capture variant — NOT in the isolated-rendering
variant, which keeps iframes. -/
theorem c2_capture_pruning :
    (∀ (ps : Styles) (l : List DomNode) (e : String × Styles × BBox),
      e ∈ allElemsList (serializeChildren ps l) → prunedOK captureSkipTags e) ∧
    (∀ (c : DomNode) (e : String × Styles × BBox),
      e ∈ allElemsOpt (serializeElementExt c) →
      prunedOK extSkipTags e ∧ e.1 ≠ "iframe") :=
  ⟨fun ps l e he => captureInv_list ps l e he,
   fun c e he =>
    ⟨captureInvExt_el c e he, by
      intro hc
      exact (captureInvExt_el c e he).2.2.1 (by rw [hc]; simp [extSkipTags])⟩⟩

/-- The input tree of the C2 witness: a visible `div` with a
`display:none` child that itself has a visible descendant. -/
def c2wTree : List DomNode :=
  [.element "div" [] [("display", "block")] ⟨0, 0, 5, 5⟩
    [.element "span" [] [("display", "none")] ⟨0, 0, 3, 3⟩
      [.element "b" [] [("display", "block")] ⟨0, 0, 2, 2⟩ []]]]

/-- C2 witness: the div is captured and satisfies the pruning invariant;
the hidden child and its visible descendant are both gone (only one
element in the whole output). -/
theorem c2_witness :
    (("div", extractStyles [("display", "block")], (⟨0, 0, 5, 5⟩ : BBox)) ∈
      allElemsList (serializeChildren [] c2wTree)) ∧
    prunedOK captureSkipTags
      ("div", extractStyles [("display", "block")], (⟨0, 0, 5, 5⟩ : BBox)) ∧
    (allElemsList (serializeChildren [] c2wTree)).length = 1 :=
  ⟨by with_unfolding_all decide,
   c2_capture_pruning.1 [] c2wTree
     ("div", extractStyles [("display", "block")], (⟨0, 0, 5, 5⟩ : BBox))
     (by with_unfolding_all decide),
   by with_unfolding_all decide⟩

/-- C2 counterexample to the claim as stated: the isolated-rendering
serializer (`html-parser.ts`) does NOT skip `iframe` — a visible, sized
iframe element appears in its Capture output. -/
theorem c2_counterexample :
    "iframe" ∈ (allElemsList (serializeChildren []
      [.element "iframe" [] [("display", "block"), ("visibility", "visible")]
        ⟨0, 0, 100, 50⟩ []])).map (fun e => e.1) := by
  with_unfolding_all decide

/-! ### Support lemmas for the mapper geometry invariant (C1) -/

def SNode.bbox : SNode → BBox
  | .element _ _ _ bb _ => bb
  | .text _ _ bb => bb

def DNode.posX : DNode → Option ℚ
  | .frame _ g _ _ _ _ _ => some g.x
  | .textN _ g _ _ _ _ => g.map (·.x)
  | .rect _ g _ _ _ _ => some g.x
  | .vector _ g _ _ _ => some g.x

def DNode.posY : DNode → Option ℚ
  | .frame _ g _ _ _ _ _ => some g.y
  | .textN _ g _ _ _ _ => g.map (·.y)
  | .rect _ g _ _ _ _ => some g.y
  | .vector _ g _ _ _ => some g.y

/-- "This design node's position is the source box translated by the
parent's absolute origin, rounded" — the relative-position property. -/
def relPos (d : DNode) (bounds pb : BBox) : Prop :=
  d.posX = some ((round (bounds.x - pb.x) : ℤ) : ℚ) ∧
  d.posY = some ((round (bounds.y - pb.y) : ℤ) : ℚ)

theorem relPos_createImageNode (env : MapEnv) (st : MapState) (a s : Styles)
    (b pb : BBox) : relPos (createImageNode env st a s b pb).1 b pb := by
  unfold createImageNode relPos
  constructor <;> simp [DNode.posX, DNode.posY, relGeom]

theorem relPos_createSvgNode (env : MapEnv) (tag : String) (a s : Styles) (b : BBox)
    (ch : List SNode) (pb : BBox) :
    relPos (createSvgNode env (.element tag a s b ch) pb) b pb := by
  unfold createSvgNode relPos
  split
  · rename_i heq
    exact SNode.noConfusion heq
  · rename_i t2 a2 s2 b2 ch2 heq
    injection heq with e1 e2 e3 e4 e5
    subst e4
    by_cases hok : env.svgOk (reconstructSvgMarkup (SNode.element tag a s b ch)) = true
    · constructor <;> (rw [if_pos hok]; simp [DNode.posX, DNode.posY, relGeom])
    · constructor <;> (rw [if_neg hok]; simp [DNode.posX, DNode.posY, relGeom])

theorem relPos_createFormElement (env : MapEnv) (st : MapState) (tag : String)
    (a s : Styles) (b pb : BBox) :
    relPos (createFormElement env st tag a s b pb).1 b pb := by
  unfold createFormElement relPos
  constructor <;>
    (split <;> (simp only []; split <;> simp [DNode.posX, DNode.posY, relGeom]))

theorem relPos_createHrNode (s : Styles) (b pb : BBox) :
    relPos (createHrNode s b pb) b pb := by
  unfold createHrNode relPos
  constructor <;> simp [DNode.posX, DNode.posY]

theorem relPos_createTextFrame (env : MapEnv) (st : MapState) (tag : String)
    (a s : Styles) (b : BBox) (tc : String) (pb : BBox) :
    relPos (createTextFrame env st tag a s b tc pb).1 b pb := by
  unfold createTextFrame relPos
  constructor <;> simp [DNode.posX, DNode.posY, relGeom]

theorem relPos_createTextNode (env : MapEnv) (st : MapState) (content : String)
    (s : Styles) (b pb : BBox) (d : DNode) (st' : MapState)
    (h : createTextNode env st content s b pb = (some d, st')) : relPos d b pb := by
  unfold createTextNode at h
  split at h
  · exact absurd h (by simp)
  · have hd : d = .textN (jsSubstring content 0 40) (some (relGeom b pb))
        (applyTextStyles env.fontAvail s content) true none none := by
      simp only [Prod.mk.injEq, Option.some.injEq] at h
      exact h.1.symm
    subst hd
    constructor <;> simp [DNode.posX, DNode.posY, relGeom]

/-- C1: every element mapped to a general Frame gets width
`max(round(w), 1)`, height `max(round(h), 1)` (both ≥ 1), and position
`round(own absolute origin − parent's absolute origin)`; and every node
the mapper produces has its position computed that way relative to the
bounding box of the parent it was mapped under — never absolutely. -/
theorem c1_general_frame_geometry :
    (∀ (env : MapEnv) (st : MapState) (tag : String) (attributes style : Styles)
       (bounds : BBox) (children : List SNode) (parentBounds : BBox),
      tag ≠ "img" → tag ≠ "svg" → tag ≠ "input" → tag ≠ "textarea" → tag ≠ "select" →
      tag ≠ "hr" →
      ¬(children.length > 0 ∧ children.all isTextNode ∧
        children.any (fun c =>
          match c with
          | .text t _ _ => jsTrim t ≠ ""
          | _ => false)) →
      ∃ (props : FrameProps) (layout : Option ALParams) (kids : List DNode)
        (st' : MapState),
        mapElement env st (.element tag attributes style bounds children) parentBounds =
          (some (.frame (generateNodeName tag attributes)
            { x := ((round (bounds.x - parentBounds.x) : ℤ) : ℚ)
              y := ((round (bounds.y - parentBounds.y) : ℤ) : ℚ)
              width := ((max (round bounds.width) 1 : ℤ) : ℚ)
              height := ((max (round bounds.height) 1 : ℤ) : ℚ) }
            props layout none none kids), st') ∧
        1 ≤ max (round bounds.width) 1 ∧ 1 ≤ max (round bounds.height) 1) ∧
    (∀ (env : MapEnv) (st : MapState) (n : SNode) (pb : BBox) (d : DNode)
       (st' : MapState),
      mapNode env st n pb = (some d, st') → relPos d (SNode.bbox n) pb) := by
  constructor
  · intro env st tag attributes style bounds children parentBounds
      h1 h2 h3 h4 h5 h6 h7
    rw [mapElement]
    rw [if_neg h1, if_neg h2, if_neg (by simp [h3, h4, h5]), if_neg h6]
    simp only [if_neg h7]
    exact ⟨applyFrameStyles style, tryApplyAutoLayout style, _, _, rfl,
      le_max_right _ _, le_max_right _ _⟩
  · intro env st n pb d st' h
    match n with
    | .text content cs bounds =>
      rw [mapNode.eq_def] at h
      simp only [isTextNode, if_true] at h
      exact relPos_createTextNode env st content cs bounds pb d st' h
    | .element tag attributes style bounds children =>
      rw [mapNode.eq_def] at h
      simp only [isTextNode, Bool.false_eq_true, if_false] at h
      rw [mapElement] at h
      show relPos d bounds pb
      by_cases hc1 : tag = "img"
      · rw [if_pos hc1] at h
        have hd : d = (createImageNode env st attributes style bounds pb).1 := by
          simp only [Prod.mk.injEq, Option.some.injEq] at h
          exact h.1.symm
        rw [hd]
        exact relPos_createImageNode env st attributes style bounds pb
      · rw [if_neg hc1] at h
        by_cases hc2 : tag = "svg"
        · rw [if_pos hc2] at h
          have hd : d = createSvgNode env (.element tag attributes style bounds children) pb := by
            simp only [Prod.mk.injEq, Option.some.injEq] at h
            exact h.1.symm
          rw [hd]
          exact relPos_createSvgNode env tag attributes style bounds children pb
        · rw [if_neg hc2] at h
          by_cases hc3 : tag = "input" ∨ tag = "textarea" ∨ tag = "select"
          · rw [if_pos hc3] at h
            have hd : d = (createFormElement env st tag attributes style bounds pb).1 := by
              simp only [Prod.mk.injEq, Option.some.injEq] at h
              exact h.1.symm
            rw [hd]
            exact relPos_createFormElement env st tag attributes style bounds pb
          · rw [if_neg hc3] at h
            by_cases hc4 : tag = "hr"
            · rw [if_pos hc4] at h
              have hd : d = createHrNode style bounds pb := by
                simp only [Prod.mk.injEq, Option.some.injEq] at h
                exact h.1.symm
              rw [hd]
              exact relPos_createHrNode style bounds pb
            · rw [if_neg hc4] at h
              by_cases hc5 : children.length > 0 ∧ children.all isTextNode ∧
                  children.any (fun c =>
                    match c with
                    | .text t _ _ => jsTrim t ≠ ""
                    | _ => false)
              · simp only [if_pos hc5] at h
                have hd : d = (createTextFrame env st tag attributes style bounds
                    (String.intercalate " " (children.filterMap (fun c =>
                      match c with
                      | .text t _ _ => some t
                      | _ => none))) pb).1 := by
                  simp only [Prod.mk.injEq, Option.some.injEq] at h
                  exact h.1.symm
                rw [hd]
                exact relPos_createTextFrame env st tag attributes style bounds _ pb
              · simp only [if_neg hc5] at h
                have hd : d = .frame (generateNodeName tag attributes) (relGeom bounds pb)
                    (applyFrameStyles style) (tryApplyAutoLayout style) none none
                    (match tryApplyAutoLayout style with
                     | some _ => (mapChildren env st children bounds).1.map setFixedSizing
                     | none => (mapChildren env st children bounds).1) := by
                  simp only [Prod.mk.injEq, Option.some.injEq] at h
                  exact h.1.symm
                rw [hd]
                constructor <;> simp [DNode.posX, DNode.posY, relGeom]

def DNode.dims : DNode → Option (ℚ × ℚ)
  | .frame _ g _ _ _ _ _ => some (g.width, g.height)
  | .textN _ g _ _ _ _ => g.map (fun gg => (gg.width, gg.height))
  | .rect _ g _ _ _ _ => some (g.width, g.height)
  | .vector _ g _ _ _ => some (g.width, g.height)

set_option maxRecDepth 10000 in
/-- C1 witness: a `div` with bounds (10.5, 20, 100.4, 0) under a parent
at (1, 2) becomes a frame at (10, 18) sized 100 × 1 (zero height clamped
to 1); a text node at (5, 5) under a parent at (1, 1) sits at (4, 4). -/
theorem c1_witness :
    ((mapElement env0 st0 (.element "div" [] [("display", "block")]
        ⟨21/2, 20, 502/5, 0⟩ []) ⟨1, 2, 0, 0⟩).1.map DNode.posX = some (some 10)) ∧
    ((mapElement env0 st0 (.element "div" [] [("display", "block")]
        ⟨21/2, 20, 502/5, 0⟩ []) ⟨1, 2, 0, 0⟩).1.map DNode.posY = some (some 18)) ∧
    ((mapElement env0 st0 (.element "div" [] [("display", "block")]
        ⟨21/2, 20, 502/5, 0⟩ []) ⟨1, 2, 0, 0⟩).1.map DNode.dims =
      some (some (100, 1))) ∧
    relPos (.textN "hi" (some ⟨4, 4, 10, 10⟩)
        (applyTextStyles env0.fontAvail [] "hi") true none none)
      ⟨5, 5, 10, 10⟩ ⟨1, 1, 0, 0⟩ := by
  obtain ⟨props, layout, kids, st', heq, hw, hh⟩ :=
    c1_general_frame_geometry.1 env0 st0 "div" [] [("display", "block")]
      ⟨21/2, 20, 502/5, 0⟩ [] ⟨1, 2, 0, 0⟩ (by decide) (by decide) (by decide)
      (by decide) (by decide) (by decide) (by decide)
  refine ⟨?_, ?_, ?_, ?_⟩
  · rw [heq]
    simp only [Option.map_some', DNode.posX, Option.some.injEq]
    with_unfolding_all decide
  · rw [heq]
    simp only [Option.map_some', DNode.posY, Option.some.injEq]
    with_unfolding_all decide
  · rw [heq]
    simp only [Option.map_some', DNode.dims, Option.some.injEq]
    with_unfolding_all decide
  · have heq2 : mapNode env0 st0 (.text "hi" [] ⟨5, 5, 10, 10⟩) ⟨1, 1, 0, 0⟩ =
        (some (.textN "hi" (some ⟨4, 4, 10, 10⟩)
          (applyTextStyles env0.fontAvail [] "hi") true none none),
         { imageCache := [], fontLoadErrors := ["Inter::Regular"] }) := by
      with_unfolding_all rfl
    exact c1_general_frame_geometry.2 env0 st0 (.text "hi" [] ⟨5, 5, 10, 10⟩)
      ⟨1, 1, 0, 0⟩
      (.textN "hi" (some ⟨4, 4, 10, 10⟩) (applyTextStyles env0.fontAvail [] "hi")
        true none none)
      { imageCache := [], fontLoadErrors := ["Inter::Regular"] } heq2

/-! ### Support lemmas for box shadows (C6) and gradients (C9) -/

theorem filterMap_eq_map_of_some {α β : Type} (f : α → Option β) (g : α → β)
    (l : List α) (h : ∀ x ∈ l, f x = some (g x)) : l.filterMap f = l.map g := by
  induction l with
  | nil => simp
  | cons x rest ih =>
    rw [List.filterMap_cons, List.map_cons, h x (List.mem_cons_self x rest),
      ih (fun y hy => h y (List.mem_cons_of_mem x hy))]

theorem mem_of_mem_enum {α : Type} {l : List α} {p : ℕ × α} (h : p ∈ l.enum) :
    p.2 ∈ l := by
  have := List.mem_enum_iff_get?.mp h
  exact List.get?_mem this

/-- C6: the box-shadow translator splits only at parenthesis depth zero
(commas inside colour functions never split), detects `inset`, extracts
the colour with function form over hex, takes the px-length tokens
positionally as offset-x, offset-y, blur (default 0), spread (default 0),
and discards an entry with fewer than two length tokens; the claim's
round-trip example parses to one non-inset shadow with offset (2,4),
blur 8, spread 0, colour alpha 0.5. -/
theorem c6_box_shadow_translation :
    (parseBoxShadow (some "rgba(0,0,0,0.5) 2px 4px 8px 0px") =
      [⟨some 2, some 4, some 8, some 0, "rgba(0,0,0,0.5)", false⟩]) ∧
    ((parseCSSColor (some "rgba(0,0,0,0.5)")).map (fun c => c.a) = some (some (1/2))) ∧
    (parseBoxShadow (some "0px 1px rgba(1,2,3,0.5), inset 2px 3px 4px #abc") =
      [⟨some 0, some 1, some 0, some 0, "rgba(1,2,3,0.5)", false⟩,
       ⟨some 2, some 3, some 4, some 0, "#abc", true⟩]) ∧
    (∀ s : String,
      (pxTokens (shadowColorRest s).2.data).length < 2 ↔ parseSingleShadow s = none) ∧
    (∀ (s : String) (r : ParsedShadow), parseSingleShadow s = some r →
      r.inset = includesJS s "inset" ∧ r.color = (shadowColorRest s).1 ∧
      ((pxTokens (shadowColorRest s).2.data).length = 2 →
        r.blur = some 0 ∧ r.spread = some 0) ∧
      ((pxTokens (shadowColorRest s).2.data).length = 3 → r.spread = some 0)) := by
  refine ⟨by with_unfolding_all decide, by with_unfolding_all decide,
    by with_unfolding_all decide, ?_, ?_⟩
  · intro s
    unfold parseSingleShadow
    rcases hn : pxTokens (shadowColorRest s).2.data with _ | ⟨n0, ns⟩
    · simp [hn]
    · rcases ns with _ | ⟨n1, rest⟩
      · simp [hn]
      · simp [hn]
  · intro s r h
    unfold parseSingleShadow at h
    rcases hn : pxTokens (shadowColorRest s).2.data with _ | ⟨n0, ns⟩
    · simp [hn] at h
    · rcases ns with _ | ⟨n1, rest⟩
      · simp [hn] at h
      · simp only [hn] at h
        have hr := (Option.some.inj h).symm
        subst hr
        refine ⟨rfl, rfl, ?_, ?_⟩
        · intro hlen
          have : rest = [] := by
            rcases rest with _ | ⟨b, t⟩
            · rfl
            · simp at hlen
          subst this
          exact ⟨rfl, rfl⟩
        · intro hlen
          rcases rest with _ | ⟨b, t⟩
          · simp at hlen
          · rcases t with _ | ⟨b2, t2⟩
            · rfl
            · simp at hlen

/-- C6 witness: a two-length-token entry keeps both defaults, and a
one-length-token entry is discarded. -/
theorem c6_witness :
    (parseSingleShadow "red 1px" = none) ∧
    ((1 : ℕ) < 2) ∧
    ∃ r : ParsedShadow, parseSingleShadow "2px 3px" = some r ∧ r.inset = false ∧
      r.blur = some 0 ∧ r.spread = some 0 := by
  refine ⟨?_, by decide, ?_⟩
  · exact (c6_box_shadow_translation.2.2.2.1 "red 1px").mp (by with_unfolding_all decide)
  · rcases hp : parseSingleShadow "2px 3px" with _ | r
    · exact absurd ((c6_box_shadow_translation.2.2.2.1 "2px 3px").mpr hp)
        (by with_unfolding_all decide)
    · obtain ⟨hi, _, hdef, _⟩ := c6_box_shadow_translation.2.2.2.2 "2px 3px" r hp
      refine ⟨r, rfl, ?_, ?_, ?_⟩
      · rw [hi]
        with_unfolding_all decide
      · exact (hdef (by with_unfolding_all decide)).1
      · exact (hdef (by with_unfolding_all decide)).2

/-- C9 (amended): the gradient translator splits the arguments on
top-level commas, interprets a leading angle token (`<n>deg` or the four
`to <side>` keywords, default "to bottom" = 180° when absent), and
assigns each valid colour a stop at (its index among the argument
entries) / (total entries − 1) — which is even spacing across [0,1] when
every entry is a valid colour; with fewer than two valid colour stops it
produces no gradient. -/
theorem c9_linear_gradient_translation :
    (∀ v : String, scanLg v.data = none → parseLinearGradient v = none) ∧
    (∀ (v : String) (body : List Char), scanLg v.data = some body →
      ((splitGradientParts ⟨body⟩).length < 2 → parseLinearGradient v = none) ∧
      ((gradStops ((splitGradientParts ⟨body⟩).drop
          (leadAngle (splitGradientParts ⟨body⟩)).2)).length < 2 →
        parseLinearGradient v = none) ∧
      (∀ g, parseLinearGradient v = some g →
        g.angle = (leadAngle (splitGradientParts ⟨body⟩)).1 ∧ 2 ≤ g.stops.length)) ∧
    (∀ (parts : List String) (p0 : String), parts.head? = some p0 →
      (∀ a, angleDegMatch p0 = some a → leadAngle parts = (a, 1)) ∧
      (angleDegMatch p0 = none →
        (p0 = "to right" → leadAngle parts = (90, 1)) ∧
        (p0 = "to left" → leadAngle parts = (270, 1)) ∧
        (p0 = "to bottom" → leadAngle parts = (180, 1)) ∧
        (p0 = "to top" → leadAngle parts = (0, 1)) ∧
        (p0 ≠ "to right" → p0 ≠ "to left" → p0 ≠ "to bottom" → p0 ≠ "to top" →
          leadAngle parts = (180, 0)))) ∧
    (∀ cps : List String, (∀ c ∈ cps, (parseCSSColor (some (jsTrim c))).isSome) →
      (gradStops cps).length = cps.length ∧
      ∀ k : ℕ, k < cps.length →
        ((gradStops cps).get? k).map (fun st => st.position) =
          some (if 1 < cps.length then (k : ℚ) / ((cps.length - 1 : ℕ) : ℚ) else 0)) := by
  refine ⟨?_, ?_, ?_, ?_⟩
  · intro v hv
    unfold parseLinearGradient
    rw [hv]
  · intro v body hv
    refine ⟨?_, ?_, ?_⟩
    · intro hlen
      unfold parseLinearGradient
      rw [hv]
      simp only [if_pos hlen]
    · intro hst
      unfold parseLinearGradient
      rw [hv]
      by_cases hlen : (splitGradientParts ⟨body⟩).length < 2
      · simp only [if_pos hlen]
      · simp only [if_neg hlen]
        simp only [if_pos hst]
    · intro g hg
      unfold parseLinearGradient at hg
      rw [hv] at hg
      by_cases hlen : (splitGradientParts ⟨body⟩).length < 2
      · simp [if_pos hlen] at hg
      · simp only [if_neg hlen] at hg
        by_cases hst : (gradStops ((splitGradientParts ⟨body⟩).drop
            (leadAngle (splitGradientParts ⟨body⟩)).2)).length < 2
        · simp [if_pos hst] at hg
        · simp only [if_neg hst] at hg
          have hgg := (Option.some.inj hg).symm
          subst hgg
          refine ⟨rfl, ?_⟩
          show 2 ≤ (gradStops ((splitGradientParts ⟨body⟩).drop
            (leadAngle (splitGradientParts ⟨body⟩)).2)).length
          omega
  · intro parts p0 hp
    obtain ⟨t, rfl⟩ : ∃ t, parts = p0 :: t := by
      rcases parts with _ | ⟨h0, t⟩
      · simp at hp
      · rw [List.head?_cons, Option.some.injEq] at hp
        exact ⟨t, by rw [hp]⟩
    refine ⟨?_, ?_⟩
    · intro a ha
      simp only [leadAngle, List.head?_cons, ha]
    · intro hnone
      refine ⟨?_, ?_, ?_, ?_, ?_⟩ <;> intro h1
      · simp only [leadAngle, List.head?_cons, hnone]
        rw [if_pos h1]
      · simp only [leadAngle, List.head?_cons, hnone]
        rw [if_neg (by rw [h1]; decide), if_pos h1]
      · simp only [leadAngle, List.head?_cons, hnone]
        rw [if_neg (by rw [h1]; decide), if_neg (by rw [h1]; decide), if_pos h1]
      · simp only [leadAngle, List.head?_cons, hnone]
        rw [if_neg (by rw [h1]; decide), if_neg (by rw [h1]; decide),
          if_neg (by rw [h1]; decide), if_pos h1]
      · intro h2 h3 h4
        simp only [leadAngle, List.head?_cons, hnone]
        rw [if_neg h1, if_neg h2, if_neg h3, if_neg h4]
  · intro cps hv
    have hmap : gradStops cps = cps.enum.map (fun ic =>
        ({ position := if cps.length > 1
                       then (ic.1 : ℚ) / ((cps.length - 1 : ℕ) : ℚ) else 0
           color := (parseCSSColor (some (jsTrim ic.2))).getD
             ⟨none, none, none, none⟩ } : ColorStop)) := by
      unfold gradStops
      apply filterMap_eq_map_of_some
      intro ic hic
      have h2 : ic.2 ∈ cps := mem_of_mem_enum hic
      rcases ho : parseCSSColor (some (jsTrim ic.2)) with _ | col
      · exact absurd (hv ic.2 h2) (by simp [ho])
      · simp [ho]
    constructor
    · rw [hmap]
      simp
    · intro k hk
      rw [hmap, List.get?_map, List.get?_enum, List.get?_eq_get hk]
      simp

/-- C9 counterexample to the claim as stated: an unparsable entry keeps
its index slot, so the remaining valid colours are NOT evenly
distributed — "linear-gradient(red, notacolor, blue, green)" yields three
stops at positions 0, 2/3, 1 (even spacing of three stops would be
0, 1/2, 1). -/
theorem c9_counterexample :
    (parseLinearGradient "linear-gradient(red, notacolor, blue, green)").map
      (fun g => g.stops.map (fun st => st.position)) = some [0, 2/3, 1] ∧
    ¬((2 : ℚ)/3 = 1/2) := by
  constructor
  · with_unfolding_all decide
  · with_unfolding_all decide

/-- C9 witness: with every entry a valid colour, the stops are even —
["red", "blue", "green"] gives three stops and the middle one sits at
1/2. -/
theorem c9_witness :
    (gradStops ["red", "blue", "green"]).length = 3 ∧
    ((gradStops ["red", "blue", "green"]).get? 1).map (fun st => st.position) =
      some (1/2) := by
  obtain ⟨hlen, hpos⟩ := c9_linear_gradient_translation.2.2.2
    ["red", "blue", "green"] (by with_unfolding_all decide)
  have hlen3 : (gradStops ["red", "blue", "green"]).length = 3 := by
    rw [hlen]
    rfl
  refine ⟨hlen3, ?_⟩
  rw [hpos 1 (by decide)]
  with_unfolding_all decide

/-! ## Support for C7/C10: `parseCSSLength` on rendered numerals -/

theorem takeWhile_digit_append (ip u : List Char)
    (hip : ∀ c ∈ ip, isDigitC c = true)
    (hu : ∀ c, u.head? = some c → isDigitC c = false) :
    (ip ++ u).takeWhile isDigitC = ip ∧ (ip ++ u).dropWhile isDigitC = u := by
  induction ip with
  | nil =>
    simp only [List.nil_append]
    cases u with
    | nil => simp
    | cons c t =>
      have hc := hu c rfl
      simp [List.takeWhile_cons, List.dropWhile_cons, hc]
  | cons c ipt ih =>
    have hc := hip c (by simp)
    have ih2 := ih (fun d hd => hip d (by simp [hd]))
    simp [List.takeWhile_cons, List.dropWhile_cons, hc, ih2.1, ih2.2]

theorem digit_not_ws {c : Char} (h : isDigitC c = true) : isWSChar c = false := by
  unfold isDigitC at h
  unfold isWSChar
  simp only [decide_eq_true_eq] at h
  simp only [decide_eq_false_iff_not]
  omega

theorem digit_ne_of {c d : Char} (h : isDigitC c = true)
    (hd : isDigitC d = false) : c ≠ d := by
  intro e
  subst e
  rw [h] at hd
  exact Bool.noConfusion hd

theorem dropWhile_head_false (p : Char → Bool) (l : List Char)
    (h : ∀ c, l.head? = some c → p c = false) : l.dropWhile p = l := by
  cases l with
  | nil => rfl
  | cons c t => simp [List.dropWhile_cons, h c rfl]

theorem parseAfterSign_append (s : ℚ) (ip fp u : List Char)
    (hok : numeralOK ip fp)
    (hu1 : ∀ c, u.head? = some c → isDigitC c = false ∧ c ≠ '.')
    (hu2 : parseExpPart u = (0, u)) :
    parseAfterSign s (ip ++ (if fp = [] then [] else '.' :: fp) ++ u) =
      some (s * ((natOfDigits ip : ℚ) + (natOfDigits fp : ℚ) / 10 ^ fp.length),
        u) := by
  obtain ⟨hip, hfp, hne⟩ := hok
  by_cases hfpe : fp = []
  · subst hfpe
    have hipne : ip ≠ [] := fun h => hne ⟨h, rfl⟩
    have htd := takeWhile_digit_append ip u hip (fun c hc => (hu1 c hc).1)
    have hdot : ¬(u.head? = some '.') := fun h => (hu1 '.' h).2 rfl
    have hipe : ip.isEmpty = false := by
      cases ip
      · exact absurd rfl hipne
      · rfl
    rw [show (ip ++ (if ([] : List Char) = [] then ([] : List Char) else '.' :: []) ++ u)
        = ip ++ u from by simp]
    simp only [parseAfterSign]
    rw [htd.1, htd.2, if_neg hdot]
    simp only [hipe, Bool.false_eq_true, false_and, if_false]
    rw [hu2]
    simp [natOfDigits]
  · have hd1 : ∀ c, ('.' :: (fp ++ u)).head? = some c → isDigitC c = false := by
      intro c hc
      simp only [List.head?_cons, Option.some.injEq] at hc
      rw [← hc]
      decide
    have htd := takeWhile_digit_append ip ('.' :: (fp ++ u)) hip hd1
    have htd2 := takeWhile_digit_append fp u hfp (fun c hc => (hu1 c hc).1)
    have hfpne : fp.isEmpty = false := by
      cases fp
      · exact absurd rfl hfpe
      · rfl
    simp only [parseAfterSign, if_neg hfpe, List.append_assoc, List.cons_append]
    rw [htd.1, htd.2]
    simp only [List.head?_cons, List.tail_cons, if_pos rfl, if_true]
    rw [htd2.1, htd2.2]
    simp only [hfpne, Bool.false_eq_true, and_false, if_false]
    rw [hu2]
    simp

theorem parseNum_numStr (sgn : Bool) (ip fp u : List Char)
    (hok : numeralOK ip fp)
    (hu1 : ∀ c, u.head? = some c → isDigitC c = false ∧ c ≠ '.')
    (hu2 : parseExpPart u = (0, u)) :
    parseNum ((numStr sgn ip fp).data ++ u) = some (numVal sgn ip fp, u) := by
  obtain ⟨hip, hfp, hne⟩ := hok
  cases sgn with
  | true =>
    show parseNum ('-' :: (ip ++ (if fp = [] then [] else '.' :: fp)) ++ u) = _
    rw [List.cons_append]
    simp only [parseNum, List.dropWhile_cons,
      show isWSChar '-' = false from by decide, Bool.false_eq_true, if_false,
      List.head?_cons, List.tail_cons]
    rw [if_neg (by decide), if_pos trivial,
      parseAfterSign_append (-1) ip fp u ⟨hip, hfp, hne⟩ hu1 hu2]
    simp only [numVal, neg_one_mul]
  | false =>
    show parseNum ((ip ++ (if fp = [] then [] else '.' :: fp)) ++ u) = _
    by_cases hipe : ip = []
    · have hfne : fp ≠ [] := fun h => hne ⟨hipe, h⟩
      subst hipe
      rw [if_neg hfne]
      simp only [List.nil_append, List.cons_append]
      simp only [parseNum, List.dropWhile_cons,
        show isWSChar '.' = false from by decide, Bool.false_eq_true, if_false,
        List.head?_cons, List.tail_cons]
      rw [if_neg (by decide), if_neg (by decide)]
      have hp := parseAfterSign_append 1 [] fp u ⟨hip, hfp, hne⟩ hu1 hu2
      rw [if_neg hfne] at hp
      simp only [List.nil_append, List.cons_append] at hp
      rw [hp]
      simp only [numVal, one_mul]
    · obtain ⟨c, ipt, rfl⟩ : ∃ c t, ip = c :: t := by
        cases ip
        · exact absurd rfl hipe
        · exact ⟨_, _, rfl⟩
      have hc := hip c (by simp)
      simp only [List.cons_append]
      simp only [parseNum, List.dropWhile_cons, digit_not_ws hc,
        Bool.false_eq_true, if_false, List.head?_cons, List.tail_cons]
      rw [if_neg (fun hh : some c = some '+' => by
          injection hh with hh2
          exact digit_ne_of hc (by decide) hh2),
        if_neg (fun hh : some c = some '-' => by
          injection hh with hh2
          exact digit_ne_of hc (by decide) hh2)]
      have hp := parseAfterSign_append 1 (c :: ipt) fp u ⟨hip, hfp, hne⟩ hu1 hu2
      simp only [List.cons_append] at hp
      rw [hp]
      simp only [numVal, one_mul]

theorem numStr_getLast? (sgn : Bool) (ip fp : List Char)
    (hok : numeralOK ip fp) :
    ∃ c : Char, (numStr sgn ip fp).data.getLast? = some c ∧
      isDigitC c = true := by
  obtain ⟨hip, hfp, hne⟩ := hok
  by_cases hfpe : fp = []
  · have hipne : ip ≠ [] := fun h => hne ⟨h, hfpe⟩
    refine ⟨ip.getLast hipne, ?_, hip _ (List.getLast_mem hipne)⟩
    cases sgn with
    | true =>
      show ('-' :: (ip ++ (if fp = [] then [] else '.' :: fp))).getLast? = _
      rw [if_pos hfpe, List.append_nil, show ('-' :: ip) = ['-'] ++ ip from rfl,
        List.getLast?_append, List.getLast?_eq_getLast ip hipne]
      rfl
    | false =>
      show (ip ++ (if fp = [] then [] else '.' :: fp)).getLast? = _
      rw [if_pos hfpe, List.append_nil, List.getLast?_eq_getLast ip hipne]
  · refine ⟨fp.getLast hfpe, ?_, hfp _ (List.getLast_mem hfpe)⟩
    cases sgn with
    | true =>
      show ('-' :: (ip ++ (if fp = [] then [] else '.' :: fp))).getLast? = _
      rw [if_neg hfpe, show ('-' :: (ip ++ '.' :: fp)) = ('-' :: ip ++ ['.']) ++ fp
          from by simp,
        List.getLast?_append, List.getLast?_eq_getLast fp hfpe]
      rfl
    | false =>
      show (ip ++ (if fp = [] then [] else '.' :: fp)).getLast? = _
      rw [if_neg hfpe, show (ip ++ '.' :: fp) = (ip ++ ['.']) ++ fp from by simp,
        List.getLast?_append, List.getLast?_eq_getLast fp hfpe]
      rfl

theorem endsWithJS_append_self (w u : String) : endsWithJS (w ++ u) u = true := by
  unfold endsWithJS
  rw [String.data_append]
  exact List.isSuffixOf_iff_suffix.mpr (List.suffix_append _ _)

theorem endsWith_last_false (v suf : String) (c d : Char)
    (hv : v.data.getLast? = some c) (hs : suf.data.getLast? = some d)
    (hcd : c ≠ d) : endsWithJS v suf = false := by
  rw [Bool.eq_false_iff]
  intro hcon
  unfold endsWithJS at hcon
  rw [List.isSuffixOf_iff_suffix] at hcon
  obtain ⟨t, ht⟩ := hcon
  rw [← ht, List.getLast?_append, hs] at hv
  have h2 : (some d).or t.getLast? = some d := rfl
  rw [h2] at hv
  exact hcd (Option.some.inj hv).symm

theorem endsWith_append2_false (w : List Char) (a b c : Char)
    (h : w.getLast? ≠ some a) :
    endsWithJS ⟨w ++ [b, c]⟩ ⟨[a, b, c]⟩ = false := by
  rw [Bool.eq_false_iff]
  intro hcon
  unfold endsWithJS at hcon
  rw [List.isSuffixOf_iff_suffix] at hcon
  obtain ⟨t, ht⟩ := hcon
  have ht2 : (t ++ [a]) ++ [b, c] = w ++ [b, c] := by
    simpa [List.append_assoc] using ht
  have ht3 := List.append_cancel_right ht2
  apply h
  rw [← ht3, List.getLast?_concat]

theorem numStr_append_getLast? (sgn : Bool) (ip fp : List Char)
    (hok : numeralOK ip fp) (u : String) (hu : u.data ≠ []) :
    ((numStr sgn ip fp ++ u)).data.getLast? = u.data.getLast? := by
  rw [String.data_append]
  rw [List.getLast?_append]
  cases hu2 : u.data.getLast? with
  | none =>
    exact absurd (List.getLast?_eq_none_iff.mp hu2) hu
  | some d => rfl

theorem numStr_ne_nil (sgn : Bool) (ip fp : List Char) (hok : numeralOK ip fp) :
    (numStr sgn ip fp).data ≠ [] := by
  obtain ⟨c, hc, _⟩ := numStr_getLast? sgn ip fp hok
  intro h
  rw [h] at hc
  simp at hc

theorem numStr_head? (sgn : Bool) (ip fp : List Char) (hok : numeralOK ip fp) :
    ∃ c : Char, (numStr sgn ip fp).data.head? = some c ∧
      (c = '-' ∨ c = '.' ∨ isDigitC c = true) := by
  obtain ⟨hip, hfp, hne⟩ := hok
  cases sgn with
  | true => exact ⟨'-', rfl, Or.inl rfl⟩
  | false =>
    cases ip with
    | nil =>
      have hfne : fp ≠ [] := fun h => hne ⟨rfl, h⟩
      refine ⟨'.', ?_, Or.inr (Or.inl rfl)⟩
      show (([] : List Char) ++ (if fp = [] then [] else '.' :: fp)).head? = _
      rw [if_neg hfne]
      rfl
    | cons c t =>
      refine ⟨c, ?_, Or.inr (Or.inr (hip c (by simp)))⟩
      rfl

theorem parseCSSLength_numStr (sgn : Bool) (ip fp : List Char) (u : String)
    (ps : Option ℚ) (hok : numeralOK ip fp)
    (hu1 : ∀ c, u.data.head? = some c → isDigitC c = false ∧ c ≠ '.')
    (hu2 : parseExpPart u.data = (0, u.data)) :
    parseCSSLength (some (numStr sgn ip fp ++ u)) ps =
      (if endsWithJS (numStr sgn ip fp ++ u) "px" then numVal sgn ip fp
       else if endsWithJS (numStr sgn ip fp ++ u) "rem" then numVal sgn ip fp * 16
       else if endsWithJS (numStr sgn ip fp ++ u) "em" then numVal sgn ip fp * 16
       else if endsWithJS (numStr sgn ip fp ++ u) "%" && psTruthy ps then
         numVal sgn ip fp / 100 * ps.getD 0
       else if endsWithJS (numStr sgn ip fp ++ u) "vw" then
         numVal sgn ip fp / 100 * 1440
       else if endsWithJS (numStr sgn ip fp ++ u) "vh" then
         numVal sgn ip fp / 100 * 900
       else if endsWithJS (numStr sgn ip fp ++ u) "pt" then
         numVal sgn ip fp * (4 / 3)
       else numVal sgn ip fp) := by
  obtain ⟨c, hc, hcor⟩ := numStr_head? sgn ip fp hok
  have hvdata : (numStr sgn ip fp ++ u).data = (numStr sgn ip fp).data ++ u.data :=
    String.data_append _ _
  have hvhead : (numStr sgn ip fp ++ u).data.head? = some c := by
    rw [hvdata]
    cases hd : (numStr sgn ip fp).data with
    | nil => exact absurd hd (numStr_ne_nil sgn ip fp hok)
    | cons c2 t =>
      rw [hd] at hc
      simp only [List.head?_cons] at hc ⊢
      exact hc
  have hcne : c ≠ 'a' ∧ c ≠ 'n' := by
    rcases hcor with h | h | h
    · rw [h]; exact ⟨by decide, by decide⟩
    · rw [h]; exact ⟨by decide, by decide⟩
    · exact ⟨digit_ne_of h (by decide), digit_ne_of h (by decide)⟩
  have hne1 : ¬(numStr sgn ip fp ++ u = "") := by
    intro h
    rw [h] at hvhead
    simp at hvhead
  have hne2 : ¬(numStr sgn ip fp ++ u = "auto") := by
    intro h
    rw [h] at hvhead
    exact hcne.1 (Option.some.inj hvhead).symm
  have hne3 : ¬(numStr sgn ip fp ++ u = "none") := by
    intro h
    rw [h] at hvhead
    exact hcne.2 (Option.some.inj hvhead).symm
  have hparse : parseNum (numStr sgn ip fp ++ u).data =
      some (numVal sgn ip fp, u.data) := by
    rw [hvdata]
    exact parseNum_numStr sgn ip fp u.data hok hu1 hu2
  simp only [parseCSSLength]
  rw [if_neg (by
    intro h
    rcases h with h | h | h
    · exact hne1 h
    · exact hne2 h
    · exact hne3 h)]
  rw [hparse]

theorem unit_side (U : String) (c0 : Char) (h0 : U.data.head? = some c0)
    (hd : isDigitC c0 = false) (hdot : c0 ≠ '.') :
    ∀ c, U.data.head? = some c → isDigitC c = false ∧ c ≠ '.' := by
  intro c hcEq
  rw [h0] at hcEq
  obtain rfl : c = c0 := (Option.some.inj hcEq).symm
  exact ⟨hd, hdot⟩

/-- C7: `parseCSSLength` converts each unit exactly — a numeral `n` with
`px` gives `n`, with `rem`/`em` gives `16·n`, with `pt` gives `n·4/3`, with
`%` and a truthy parent size `p` gives `n/100·p`, with `vw`/`vh` gives
`n/100` of the fixed 1440×900 reference viewport; `auto`, `none`, the
empty string and unparsable input give `0`; a bare numeral passes through
unchanged. -/
theorem c7_length_unit_conversions :
    (∀ ps, parseCSSLength none ps = 0 ∧ parseCSSLength (some "") ps = 0 ∧
      parseCSSLength (some "auto") ps = 0 ∧
      parseCSSLength (some "none") ps = 0) ∧
    (∀ v ps, parseNum v.data = none → parseCSSLength (some v) ps = 0) ∧
    (∀ (sgn : Bool) (ip fp : List Char), numeralOK ip fp → ∀ ps,
      parseCSSLength (some (numStr sgn ip fp ++ "px")) ps = numVal sgn ip fp ∧
      parseCSSLength (some (numStr sgn ip fp ++ "rem")) ps =
        numVal sgn ip fp * 16 ∧
      parseCSSLength (some (numStr sgn ip fp ++ "em")) ps =
        numVal sgn ip fp * 16 ∧
      parseCSSLength (some (numStr sgn ip fp ++ "pt")) ps =
        numVal sgn ip fp * (4 / 3) ∧
      (∀ p : ℚ, p ≠ 0 → parseCSSLength (some (numStr sgn ip fp ++ "%")) (some p)
        = numVal sgn ip fp / 100 * p) ∧
      parseCSSLength (some (numStr sgn ip fp ++ "vw")) ps =
        numVal sgn ip fp / 100 * 1440 ∧
      parseCSSLength (some (numStr sgn ip fp ++ "vh")) ps =
        numVal sgn ip fp / 100 * 900 ∧
      parseCSSLength (some (numStr sgn ip fp)) ps = numVal sgn ip fp) := by
  refine ⟨?_, ?_, ?_⟩
  · intro ps
    exact ⟨rfl, by with_unfolding_all rfl, by with_unfolding_all rfl,
      by with_unfolding_all rfl⟩
  · intro v ps h
    simp only [parseCSSLength]
    by_cases hg : v = "" ∨ v = "auto" ∨ v = "none"
    · rw [if_pos hg]
    · rw [if_neg hg, h]
  · intro sgn ip fp hok ps
    obtain ⟨lc, hlc, hlcd⟩ := numStr_getLast? sgn ip fp hok
    refine ⟨?_, ?_, ?_, ?_, ?_, ?_, ?_, ?_⟩
    · rw [parseCSSLength_numStr sgn ip fp "px" ps hok
        (unit_side "px" 'p' rfl (by decide) (by decide)) rfl]
      rw [endsWithJS_append_self]
      simp
    · have hl : (numStr sgn ip fp ++ "rem").data.getLast? = some 'm' := by
        rw [numStr_append_getLast? sgn ip fp hok "rem" (by decide)]
        decide
      rw [parseCSSLength_numStr sgn ip fp "rem" ps hok
        (unit_side "rem" 'r' rfl (by decide) (by decide)) rfl]
      rw [endsWith_last_false _ "px" 'm' 'x' hl rfl (by decide)]
      rw [endsWithJS_append_self]
      simp
    · have hl : (numStr sgn ip fp ++ "em").data.getLast? = some 'm' := by
        rw [numStr_append_getLast? sgn ip fp hok "em" (by decide)]
        decide
      have hnr : (numStr sgn ip fp).data.getLast? ≠ some 'r' := by
        rw [hlc]
        intro h
        obtain rfl : lc = 'r' := Option.some.inj h
        exact absurd hlcd (by decide)
      have hrem : endsWithJS (numStr sgn ip fp ++ "em") "rem" = false := by
        have h2 := endsWith_append2_false (numStr sgn ip fp).data 'r' 'e' 'm' hnr
        unfold endsWithJS at h2 ⊢
        rw [String.data_append]
        exact h2
      rw [parseCSSLength_numStr sgn ip fp "em" ps hok
        (unit_side "em" 'e' rfl (by decide) (by decide)) rfl]
      rw [endsWith_last_false _ "px" 'm' 'x' hl rfl (by decide), hrem]
      rw [endsWithJS_append_self]
      simp
    · have hl : (numStr sgn ip fp ++ "pt").data.getLast? = some 't' := by
        rw [numStr_append_getLast? sgn ip fp hok "pt" (by decide)]
        decide
      rw [parseCSSLength_numStr sgn ip fp "pt" ps hok
        (unit_side "pt" 'p' rfl (by decide) (by decide)) rfl]
      rw [endsWith_last_false _ "px" 't' 'x' hl rfl (by decide),
        endsWith_last_false _ "rem" 't' 'm' hl rfl (by decide),
        endsWith_last_false _ "em" 't' 'm' hl rfl (by decide),
        endsWith_last_false _ "%" 't' '%' hl rfl (by decide),
        endsWith_last_false _ "vw" 't' 'w' hl rfl (by decide),
        endsWith_last_false _ "vh" 't' 'h' hl rfl (by decide)]
      rw [endsWithJS_append_self]
      simp
    · intro p hp
      have hl : (numStr sgn ip fp ++ "%").data.getLast? = some '%' := by
        rw [numStr_append_getLast? sgn ip fp hok "%" (by decide)]
        decide
      rw [parseCSSLength_numStr sgn ip fp "%" (some p) hok
        (unit_side "%" '%' rfl (by decide) (by decide)) rfl]
      rw [endsWith_last_false _ "px" '%' 'x' hl rfl (by decide),
        endsWith_last_false _ "rem" '%' 'm' hl rfl (by decide),
        endsWith_last_false _ "em" '%' 'm' hl rfl (by decide)]
      rw [endsWithJS_append_self]
      simp [psTruthy, hp]
    · have hl : (numStr sgn ip fp ++ "vw").data.getLast? = some 'w' := by
        rw [numStr_append_getLast? sgn ip fp hok "vw" (by decide)]
        decide
      rw [parseCSSLength_numStr sgn ip fp "vw" ps hok
        (unit_side "vw" 'v' rfl (by decide) (by decide)) rfl]
      rw [endsWith_last_false _ "px" 'w' 'x' hl rfl (by decide),
        endsWith_last_false _ "rem" 'w' 'm' hl rfl (by decide),
        endsWith_last_false _ "em" 'w' 'm' hl rfl (by decide),
        endsWith_last_false _ "%" 'w' '%' hl rfl (by decide)]
      rw [endsWithJS_append_self]
      simp
    · have hl : (numStr sgn ip fp ++ "vh").data.getLast? = some 'h' := by
        rw [numStr_append_getLast? sgn ip fp hok "vh" (by decide)]
        decide
      rw [parseCSSLength_numStr sgn ip fp "vh" ps hok
        (unit_side "vh" 'v' rfl (by decide) (by decide)) rfl]
      rw [endsWith_last_false _ "px" 'h' 'x' hl rfl (by decide),
        endsWith_last_false _ "rem" 'h' 'm' hl rfl (by decide),
        endsWith_last_false _ "em" 'h' 'm' hl rfl (by decide),
        endsWith_last_false _ "%" 'h' '%' hl rfl (by decide),
        endsWith_last_false _ "vw" 'h' 'w' hl rfl (by decide)]
      rw [endsWithJS_append_self]
      simp
    · have hmaster := parseCSSLength_numStr sgn ip fp "" ps hok
        (fun c h => by
          rw [show ("" : String).data.head? = (none : Option Char) from rfl] at h
          exact Option.noConfusion h) rfl
      rw [String.append_empty] at hmaster
      rw [hmaster]
      rw [endsWith_last_false _ "px" lc 'x' hlc rfl (digit_ne_of hlcd (by decide)),
        endsWith_last_false _ "rem" lc 'm' hlc rfl (digit_ne_of hlcd (by decide)),
        endsWith_last_false _ "em" lc 'm' hlc rfl (digit_ne_of hlcd (by decide)),
        endsWith_last_false _ "%" lc '%' hlc rfl (digit_ne_of hlcd (by decide)),
        endsWith_last_false _ "vw" lc 'w' hlc rfl (digit_ne_of hlcd (by decide)),
        endsWith_last_false _ "vh" lc 'h' hlc rfl (digit_ne_of hlcd (by decide)),
        endsWith_last_false _ "pt" lc 't' hlc rfl (digit_ne_of hlcd (by decide))]
      simp

/-- C7 witness: the numeral `12.5` with unit `rem` — a well-formed numeral
whose translation is `12.5 × 16 = 200`. -/
theorem c7_witness :
    numeralOK ['1', '2'] ['5'] ∧
    numStr false ['1', '2'] ['5'] ++ "rem" = "12.5rem" ∧
    numVal false ['1', '2'] ['5'] = 25 / 2 ∧
    parseCSSLength (some "12.5rem") none = 200 := by
  refine ⟨by decide, by with_unfolding_all decide, by with_unfolding_all decide,
    ?_⟩
  have h := (c7_length_unit_conversions.2.2 false ['1', '2'] ['5']
    (by decide) none).2.1
  rw [show numStr false ['1', '2'] ['5'] ++ "rem" = "12.5rem" from by
    with_unfolding_all decide] at h
  rw [h]
  with_unfolding_all decide

/-- C10: a percentage value evaluated without a parent size — the second
argument absent (`none`) or zero — falls through every unit branch (the
`%` branch requires a truthy parent size) and returns the raw numeral
itself. -/
theorem c10_percent_without_parent :
    ∀ (sgn : Bool) (ip fp : List Char), numeralOK ip fp →
      parseCSSLength (some (numStr sgn ip fp ++ "%")) none = numVal sgn ip fp ∧
      parseCSSLength (some (numStr sgn ip fp ++ "%")) (some 0) =
        numVal sgn ip fp := by
  intro sgn ip fp hok
  have hl : (numStr sgn ip fp ++ "%").data.getLast? = some '%' := by
    rw [numStr_append_getLast? sgn ip fp hok "%" (by decide)]
    decide
  constructor <;>
  · rw [parseCSSLength_numStr sgn ip fp "%" _ hok
      (unit_side "%" '%' rfl (by decide) (by decide)) rfl]
    rw [endsWith_last_false _ "px" '%' 'x' hl rfl (by decide),
      endsWith_last_false _ "rem" '%' 'm' hl rfl (by decide),
      endsWith_last_false _ "em" '%' 'm' hl rfl (by decide),
      endsWith_last_false _ "vw" '%' 'w' hl rfl (by decide),
      endsWith_last_false _ "vh" '%' 'h' hl rfl (by decide),
      endsWith_last_false _ "pt" '%' 't' hl rfl (by decide)]
    simp [psTruthy]

/-- C10 witness: `parseCSSLength "50%"` with no parent size returns the
raw `50`, not `0` and not a fraction. -/
theorem c10_witness :
    numeralOK ['5', '0'] [] ∧
    numStr false ['5', '0'] [] ++ "%" = "50%" ∧
    numVal false ['5', '0'] [] = 50 ∧
    parseCSSLength (some "50%") none = 50 := by
  refine ⟨by decide, by with_unfolding_all decide, by with_unfolding_all decide,
    ?_⟩
  have h := (c10_percent_without_parent false ['5', '0'] [] (by decide)).1
  rw [show numStr false ['5', '0'] [] ++ "%" = "50%" from by
    with_unfolding_all decide] at h
  rw [h]
  with_unfolding_all decide

/-! ## Support for C8: hex colours -/

theorem hexVal_isSome {c : Char} (h : isHexC c = true) :
    ∃ v, hexValC c = some v ∧ v ≤ 15 := by
  unfold isHexC at h
  unfold hexValC at h ⊢
  by_cases h1 : 48 ≤ c.toNat ∧ c.toNat ≤ 57
  · rw [if_pos h1]
    exact ⟨c.toNat - 48, rfl, by omega⟩
  · by_cases h2 : 97 ≤ c.toNat ∧ c.toNat ≤ 102
    · rw [if_neg h1, if_pos h2]
      exact ⟨c.toNat - 87, rfl, by omega⟩
    · by_cases h3 : 65 ≤ c.toNat ∧ c.toNat ≤ 70
      · rw [if_neg h1, if_neg h2, if_pos h3]
        exact ⟨c.toNat - 55, rfl, by omega⟩
      · rw [if_neg h1, if_neg h2, if_neg h3] at h
        simp at h

theorem hex_range {c : Char} (h : isHexC c = true) :
    (48 ≤ c.toNat ∧ c.toNat ≤ 57) ∨ (97 ≤ c.toNat ∧ c.toNat ≤ 102) ∨
      (65 ≤ c.toNat ∧ c.toNat ≤ 70) := by
  by_cases h1 : 48 ≤ c.toNat ∧ c.toNat ≤ 57
  · exact Or.inl h1
  · by_cases h2 : 97 ≤ c.toNat ∧ c.toNat ≤ 102
    · exact Or.inr (Or.inl h2)
    · by_cases h3 : 65 ≤ c.toNat ∧ c.toNat ≤ 70
      · exact Or.inr (Or.inr h3)
      · unfold isHexC hexValC at h
        rw [if_neg h1, if_neg h2, if_neg h3] at h
        simp at h

theorem hex_not_ws {c : Char} (h : isHexC c = true) : isWSChar c = false := by
  have hr := hex_range h
  unfold isWSChar
  simp only [decide_eq_false_iff_not]
  omega

theorem hexC_ne_of {c d : Char} (h : isHexC c = true)
    (hd : isHexC d = false) : c ≠ d := by
  intro e
  subst e
  rw [h] at hd
  exact Bool.noConfusion hd

theorem hexPair (a b : Char) (ha : isHexC a = true) (hb : isHexC b = true) :
    ∃ q : ℚ, jsDivOpt (parseIntHexJS ⟨[a, b]⟩) 255 = some q ∧ 0 ≤ q ∧ q ≤ 1 := by
  obtain ⟨va, hva, hva15⟩ := hexVal_isSome ha
  obtain ⟨vb, hvb, hvb15⟩ := hexVal_isSome hb
  have hgoal : parseIntHexJS ⟨[a, b]⟩ = some ((va * 16 + vb : ℕ) : ℤ) := by
    simp only [parseIntHexJS]
    rw [dropWhile_head_false isWSChar [a, b] (fun c hc => by
      rw [List.head?_cons, Option.some.injEq] at hc
      rw [← hc]
      exact hex_not_ws ha)]
    simp only [List.head?_cons, List.tail_cons]
    rw [if_neg (fun hh : some a = some '+' => absurd (Option.some.inj hh)
        (hexC_ne_of ha (by decide))),
      if_neg (fun hh : some a = some '-' => absurd (Option.some.inj hh)
        (hexC_ne_of ha (by decide)))]
    simp only [List.head?_cons, List.tail_cons]
    rw [if_neg (fun hh : some a = some '0' ∧ some b = some 'x' =>
        absurd (Option.some.inj hh.2) (hexC_ne_of hb (by decide))),
      if_neg (fun hh : some a = some '0' ∧ some b = some 'X' =>
        absurd (Option.some.inj hh.2) (hexC_ne_of hb (by decide)))]
    rw [show List.takeWhile isHexC [a, b] = [a, b] from by
      simp [List.takeWhile_cons, ha, hb]]
    rw [if_neg (by simp)]
    simp only [List.foldl_cons, List.foldl_nil, hva, hvb, Option.getD_some]
    norm_num
  refine ⟨((va * 16 + vb : ℕ) : ℚ) / 255, ?_, by positivity, ?_⟩
  · rw [show jsDivOpt (parseIntHexJS ⟨[a, b]⟩) 255 =
        (parseIntHexJS ⟨[a, b]⟩).map (fun z => (z : ℚ) / 255) from rfl, hgoal]
    simp
  · rw [div_le_one (by norm_num)]
    have hle : va * 16 + vb ≤ 255 := by omega
    exact_mod_cast hle

theorem jsTrim_noop (s : String)
    (h1 : ∀ c, s.data.head? = some c → isWSChar c = false)
    (h2 : ∀ c, s.data.getLast? = some c → isWSChar c = false) :
    jsTrim s = s := by
  unfold jsTrim
  rw [dropWhile_head_false _ _ h1]
  rw [dropWhile_head_false _ _ (fun c hc => h2 c (by rwa [← List.head?_reverse]))]
  rw [List.reverse_reverse]

theorem mkcons_ne_of_head (c : Char) (l : List Char) (w : String) (d : Char)
    (hw : w.data.head? = some d) (hcd : c ≠ d) : (⟨c :: l⟩ : String) ≠ w := by
  intro h
  have h2 : (c :: l).head? = w.data.head? := by rw [← h]
  rw [hw, List.head?_cons] at h2
  exact hcd (Option.some.inj h2)

theorem assoc_none_of_ne {β : Type} (m : List (String × β)) (k : String)
    (h : ∀ p ∈ m, p.1 ≠ k) : assoc m k = none := by
  induction m with
  | nil => rfl
  | cons p rest ih =>
    simp only [assoc]
    rw [if_neg (h p (by simp))]
    exact ih (fun q hq => h q (by simp [hq]))

theorem list_len3 {l : List Char} (h : l.length = 3) :
    ∃ a b c, l = [a, b, c] := by
  rcases l with _ | ⟨a, l⟩
  · simp only [List.length_nil] at h
    omega
  rcases l with _ | ⟨b, l⟩
  · simp only [List.length_cons, List.length_nil] at h
    omega
  rcases l with _ | ⟨c, l⟩
  · simp only [List.length_cons, List.length_nil] at h
    omega
  rcases l with _ | ⟨d, l⟩
  · exact ⟨a, b, c, rfl⟩
  · simp only [List.length_cons] at h
    omega

theorem list_len4 {l : List Char} (h : l.length = 4) :
    ∃ a b c d, l = [a, b, c, d] := by
  rcases l with _ | ⟨a, l⟩
  · simp only [List.length_nil] at h
    omega
  obtain ⟨b, c, d, rfl⟩ := list_len3 (by simpa using h)
  exact ⟨a, b, c, d, rfl⟩

theorem list_len6 {l : List Char} (h : l.length = 6) :
    ∃ a b c d e f, l = [a, b, c, d, e, f] := by
  rcases l with _ | ⟨a, l⟩
  · simp only [List.length_nil] at h
    omega
  rcases l with _ | ⟨b, l⟩
  · simp only [List.length_cons, List.length_nil] at h
    omega
  obtain ⟨c, d, e, f, rfl⟩ := list_len4 (by simpa using h)
  exact ⟨a, b, c, d, e, f, rfl⟩

theorem list_len8 {l : List Char} (h : l.length = 8) :
    ∃ a b c d e f g k, l = [a, b, c, d, e, f, g, k] := by
  rcases l with _ | ⟨a, l⟩
  · simp only [List.length_nil] at h
    omega
  rcases l with _ | ⟨b, l⟩
  · simp only [List.length_cons, List.length_nil] at h
    omega
  obtain ⟨c, d, e, f, g, k, rfl⟩ := list_len6 (by simpa using h)
  exact ⟨a, b, c, d, e, f, g, k, rfl⟩

theorem in01_six (a b c d e f : Char) (ha : isHexC a = true)
    (hb : isHexC b = true) (hc : isHexC c = true) (hd : isHexC d = true)
    (he : isHexC e = true) (hf : isHexC f = true) :
    rgbaIn01 (parseHex ⟨'#' :: [a, b, c, d, e, f]⟩) := by
  rw [show parseHex ⟨'#' :: [a, b, c, d, e, f]⟩ =
      { r := jsDivOpt (parseIntHexJS ⟨[a, b]⟩) 255,
        g := jsDivOpt (parseIntHexJS ⟨[c, d]⟩) 255,
        b := jsDivOpt (parseIntHexJS ⟨[e, f]⟩) 255,
        a := some 1 } from rfl]
  exact ⟨hexPair a b ha hb, hexPair c d hc hd, hexPair e f he hf,
    1, rfl, by norm_num, by norm_num⟩

theorem in01_eight (a b c d e f g k : Char) (ha : isHexC a = true)
    (hb : isHexC b = true) (hc : isHexC c = true) (hd : isHexC d = true)
    (he : isHexC e = true) (hf : isHexC f = true) (hg : isHexC g = true)
    (hk : isHexC k = true) :
    rgbaIn01 (parseHex ⟨'#' :: [a, b, c, d, e, f, g, k]⟩) := by
  rw [show parseHex ⟨'#' :: [a, b, c, d, e, f, g, k]⟩ =
      { r := jsDivOpt (parseIntHexJS ⟨[a, b]⟩) 255,
        g := jsDivOpt (parseIntHexJS ⟨[c, d]⟩) 255,
        b := jsDivOpt (parseIntHexJS ⟨[e, f]⟩) 255,
        a := jsDivOpt (parseIntHexJS ⟨[g, k]⟩) 255 } from rfl]
  exact ⟨hexPair a b ha hb, hexPair c d hc hd, hexPair e f he hf,
    hexPair g k hg hk⟩

/-- C8: hex colours — for an arbitrary non-empty string of hex digits after
`#`, `parseCSSColor` normalises (trim, lowercase, named-colour lookup miss)
and hands the string to `parseHex`; for 3/4/6/8 hex digits every RGBA
component is a definite number in `[0, 1]`; a 3-digit form is normalised
by digit doubling to its 6-digit form and a 4-digit form to its 8-digit
form; `transparent`, `none`, the empty string, and any input that is not a
named colour and does not start with `#`/`rgb`/`hsl` give `null`. -/
theorem c8_hex_color_translation :
    (parseCSSColor none = none ∧ parseCSSColor (some "") = none ∧
      parseCSSColor (some "transparent") = none ∧
      parseCSSColor (some "none") = none) ∧
    (∀ v : String,
      assoc NAMED_COLORS (toLowerJS (jsTrim v)) = none →
      startsWithJS (toLowerJS (jsTrim v)) "#" = false →
      startsWithJS (toLowerJS (jsTrim v)) "rgb" = false →
      startsWithJS (toLowerJS (jsTrim v)) "hsl" = false →
      parseCSSColor (some v) = none) ∧
    (∀ l : List Char, (∀ c ∈ l, isHexC c = true) → l ≠ [] →
      parseCSSColor (some ⟨'#' :: l⟩) =
        some (parseHex ⟨'#' :: l.map toLowerC⟩)) ∧
    (∀ l : List Char, (∀ c ∈ l, isHexC c = true) →
      l.length = 3 ∨ l.length = 4 ∨ l.length = 6 ∨ l.length = 8 →
      rgbaIn01 (parseHex ⟨'#' :: l⟩)) ∧
    (∀ a b c : Char,
      parseHex ⟨'#' :: [a, b, c]⟩ = parseHex ⟨'#' :: [a, a, b, b, c, c]⟩) ∧
    (∀ a b c d : Char,
      parseHex ⟨'#' :: [a, b, c, d]⟩ =
        parseHex ⟨'#' :: [a, a, b, b, c, c, d, d]⟩) := by
  refine ⟨⟨rfl, by with_unfolding_all decide, by with_unfolding_all decide,
    by with_unfolding_all decide⟩, ?_, ?_, ?_, fun a b c => rfl,
    fun a b c d => rfl⟩
  · intro v h1 h2 h3 h4
    simp only [parseCSSColor]
    by_cases hg : v = "" ∨ v = "transparent" ∨ v = "none"
    · rw [if_pos hg]
    · rw [if_neg hg, h1]
      simp only [h2, h3, h4, Bool.false_eq_true, if_false]
  · intro l hhex hlne
    have hne1 : (⟨'#' :: l⟩ : String) ≠ "" := by
      intro h
      have h2 : ('#' :: l).head? = ("" : String).data.head? := by rw [← h]
      simp at h2
    have hne2 : (⟨'#' :: l⟩ : String) ≠ "transparent" :=
      mkcons_ne_of_head '#' l _ 't' rfl (by decide)
    have hne3 : (⟨'#' :: l⟩ : String) ≠ "none" :=
      mkcons_ne_of_head '#' l _ 'n' rfl (by decide)
    have htrim : jsTrim ⟨'#' :: l⟩ = ⟨'#' :: l⟩ := by
      apply jsTrim_noop
      · intro c hc
        obtain rfl : c = '#' :=
          (Option.some.inj (show some '#' = some c from hc)).symm
        decide
      · intro c hc
        have hgl : ('#' :: l).getLast? = l.getLast? := by
          cases l
          · exact absurd rfl hlne
          · rw [List.getLast?_cons_cons]
        rw [show (⟨'#' :: l⟩ : String).data = '#' :: l from rfl, hgl] at hc
        exact hex_not_ws (hhex c (List.mem_of_mem_getLast? hc))
    have hlower : toLowerJS ⟨'#' :: l⟩ = ⟨'#' :: l.map toLowerC⟩ := rfl
    have hassoc : assoc NAMED_COLORS ⟨'#' :: l.map toLowerC⟩ = none := by
      apply assoc_none_of_ne
      intro p hp he
      have hkeys : ∀ p ∈ NAMED_COLORS, p.1.data.head? ≠ some '#' := by decide
      apply hkeys p hp
      rw [he]
      rfl
    simp only [parseCSSColor]
    rw [if_neg (by
      intro h
      rcases h with h | h | h
      exacts [hne1 h, hne2 h, hne3 h])]
    rw [htrim, hlower, hassoc]
    have hsw : startsWithJS ⟨'#' :: l.map toLowerC⟩ "#" = true := by
      unfold startsWithJS
      rw [show ("#" : String).data = ['#'] from rfl]
      exact List.isPrefixOf_iff_prefix.mpr ⟨l.map toLowerC, rfl⟩
    simp only [hsw, if_true]
  · intro l hhex hlen
    rcases hlen with h3 | h4 | h6 | h8
    · obtain ⟨a, b, c, rfl⟩ := list_len3 h3
      rw [show parseHex ⟨'#' :: [a, b, c]⟩ =
          parseHex ⟨'#' :: [a, a, b, b, c, c]⟩ from rfl]
      exact in01_six a a b b c c (hhex a (by simp)) (hhex a (by simp))
        (hhex b (by simp)) (hhex b (by simp)) (hhex c (by simp))
        (hhex c (by simp))
    · obtain ⟨a, b, c, d, rfl⟩ := list_len4 h4
      rw [show parseHex ⟨'#' :: [a, b, c, d]⟩ =
          parseHex ⟨'#' :: [a, a, b, b, c, c, d, d]⟩ from rfl]
      exact in01_eight a a b b c c d d (hhex a (by simp)) (hhex a (by simp))
        (hhex b (by simp)) (hhex b (by simp)) (hhex c (by simp))
        (hhex c (by simp)) (hhex d (by simp)) (hhex d (by simp))
    · obtain ⟨a, b, c, d, e, f, rfl⟩ := list_len6 h6
      exact in01_six a b c d e f (hhex a (by simp)) (hhex b (by simp))
        (hhex c (by simp)) (hhex d (by simp)) (hhex e (by simp))
        (hhex f (by simp))
    · obtain ⟨a, b, c, d, e, f, g, k, rfl⟩ := list_len8 h8
      exact in01_eight a b c d e f g k (hhex a (by simp)) (hhex b (by simp))
        (hhex c (by simp)) (hhex d (by simp)) (hhex e (by simp))
        (hhex f (by simp)) (hhex g (by simp)) (hhex k (by simp))

/-- C8 witness: `#AbC` normalises to `#abc`, equals its doubled form
`#aabbcc`, and its components are in `[0, 1]`. -/
theorem c8_witness :
    parseCSSColor (some "#AbC") = some (parseHex "#abc") ∧
    parseHex "#abc" = parseHex "#aabbcc" ∧
    rgbaIn01 (parseHex ⟨'#' :: ['a', 'b', 'c']⟩) ∧
    parseCSSColor (some "blah") = none := by
  refine ⟨?_, ?_, ?_, ?_⟩
  · have h := c8_hex_color_translation.2.2.1 ['A', 'b', 'C'] (by decide)
      (by decide)
    exact h
  · exact c8_hex_color_translation.2.2.2.2.1 'a' 'b' 'c'
  · exact c8_hex_color_translation.2.2.2.1 ['a', 'b', 'c'] (by decide)
      (Or.inl (by decide))
  · exact c8_hex_color_translation.2.1 "blah" (by with_unfolding_all decide)
      (by with_unfolding_all decide) (by with_unfolding_all decide)
      (by with_unfolding_all decide)

end HtmlToDesign
